import Mathlib

/-!
Nginx-2.0: connection / response lifecycle of `Server`.

A shallow embedding of `src/Server.cpp`, `src/HttpResponse.cpp`,
`src/HttpRequest.cpp` and `src/ServerManager.cpp`.

* A C++ `std::string` is a list of `Char`, one element per `char`.
* A `std::map<K, V>` is an association list kept in ascending key order;
  `operator[]` assignment, `erase`, `find` and `count` are the functions
  `mapAssign`, `mapErase`, `mapFind` and `mapCount`.
* A pointer stored in a map is embedded as its pointee: mutating the
  pointee is storing the new value under the same key.
* Results of system calls (`send`, `recv`, `read`) are arguments of the
  embedded function; the calls a function issues are appended to the
  `trace` of the server, oldest first.
* An exception or an undefined dereference in the parser is a `Fault`; the
  tokens a `std::getline` loop extracts are computed first and the loop runs
  over them.
-/

namespace Nginx

/-- A `std::string`, one `Char` per C++ `char`. -/
abbrev Bytes := List Char

/-- The `operator<` of `std::string`: lexicographic on the character codes. -/
def strLess : Bytes → Bytes → Bool
  | [], [] => false
  | [], _ :: _ => true
  | _ :: _, [] => false
  | a :: as, b :: bs =>
    if a.toNat < b.toNat then true
    else if b.toNat < a.toNat then false
    else strLess as bs

/-- The `operator<` of `int`, as a Boolean. -/
def intLess (a b : Int) : Bool := decide (a < b)

/-- The `std::to_string` of a signed integer. -/
def to_string (n : Int) : Bytes :=
  if n < 0 then '-' :: Nat.toDigits 10 n.natAbs else Nat.toDigits 10 n.toNat

/-! ## `std::map` -/

/-- The `find` of `std::map`: the value stored under `k`, if any. -/
def mapFind {κ α : Type} [DecidableEq κ] (m : List (κ × α)) (k : κ) : Option α :=
  match m with
  | [] => none
  | (k', v) :: rest => if k = k' then some v else mapFind rest k

/-- The `count` of `std::map`: 1 when `k` is a key, else 0. -/
def mapCount {κ α : Type} [DecidableEq κ] (m : List (κ × α)) (k : κ) : Nat :=
  match mapFind m k with
  | some _ => 1
  | none => 0

/-- The `erase(key)` of `std::map`. -/
def mapErase {κ α : Type} [DecidableEq κ] (m : List (κ × α)) (k : κ) : List (κ × α) :=
  m.filter (fun p => decide (p.1 ≠ k))

/-- The assignment `m[k] = v` of `std::map`: replaces the value of an existing
key, otherwise inserts the pair at its place in key order. -/
def mapAssign {κ α : Type} [DecidableEq κ] (lt : κ → κ → Bool)
    (m : List (κ × α)) (k : κ) (v : α) : List (κ × α) :=
  match m with
  | [] => [(k, v)]
  | (k', v') :: rest =>
    if k = k' then (k, v) :: rest
    else if lt k k' then (k, v) :: (k', v') :: rest
    else (k', v') :: mapAssign lt rest k v

/-! ## `HttpResponse` (src/HttpResponse.cpp) -/

/-- The class `HttpResponse`. -/
structure HttpResponse where
  version : Bytes
  statusCode : Bytes
  statusMessage : Bytes
  headers : List (Bytes × Bytes)
  body : Bytes
deriving DecidableEq, Repr

namespace HttpResponse

/-- The default constructor `HttpResponse()`. -/
def new : HttpResponse :=
  { version := [], statusCode := [], statusMessage := [], headers := [], body := [] }

def setVersion (r : HttpResponse) (version : Bytes) : HttpResponse :=
  { r with version := version }

def setStatusCode (r : HttpResponse) (statusCode : Bytes) : HttpResponse :=
  { r with statusCode := statusCode }

def setStatusMessage (r : HttpResponse) (statusMessage : Bytes) : HttpResponse :=
  { r with statusMessage := statusMessage }

def setHeader (r : HttpResponse) (key value : Bytes) : HttpResponse :=
  { r with headers := mapAssign strLess r.headers key value }

def setBody (r : HttpResponse) (body : Bytes) : HttpResponse :=
  { r with body := body }

def getBody (r : HttpResponse) : Bytes := r.body

def getStatusLine (r : HttpResponse) : Bytes :=
  r.version ++ " ".toList ++ r.statusCode ++ " ".toList ++ r.statusMessage

/-- The loop of `getHeadersAsString` over the map, in key order. -/
def headersToString : List (Bytes × Bytes) → Bytes
  | [] => []
  | (k, v) :: rest => (k ++ ": ".toList ++ v ++ "\r\n".toList) ++ headersToString rest

def getHeadersAsString (r : HttpResponse) : Bytes := headersToString r.headers

def buildResponse (r : HttpResponse) : Bytes :=
  r.getStatusLine ++ "\r\n".toList ++ r.getHeadersAsString ++ "\r\n".toList ++ r.getBody

end HttpResponse

/-! ## `ResponseState` -/

/-- The tag of a `ResponseState`. -/
inductive ResponseType where
  | SMALL_RESPONSE
  | LARGE_RESPONSE
deriving DecidableEq, Repr

/-- The macro `CHUNK_SIZE` of src/HttpResponse.hpp. -/
def CHUNK_SIZE : Nat := 8192

/-- The class `ResponseState`, with the members `Server.cpp` reads and writes.
`file` is the content behind `fileStream`; for a large response `bytesSent`
counts the bytes read from the file so far. -/
structure ResponseState where
  type : ResponseType
  smallResponse : Bytes
  closeConnection : Bool
  headers : Bytes
  file : Bytes
  fileSize : Nat
  bytesSent : Nat
  headersSent : Nat
  isHeaderSent : Bool
  currentChunk : Bytes
  currentChunkPosition : Nat
deriving DecidableEq, Repr

namespace ResponseState

/-- Modelled from the spec: the constructors `ResponseState(response)` and
`ResponseState(response, closeConnection)`, whose bodies are not among the
sources. A Small state holds the complete response bytes, a bytes-sent cursor
at zero and the close-after-send flag. -/
def small (response : Bytes) (closeConnection : Bool) : ResponseState :=
  { type := .SMALL_RESPONSE, smallResponse := response, closeConnection := closeConnection,
    headers := [], file := [], fileSize := 0, bytesSent := 0, headersSent := 0,
    isHeaderSent := false, currentChunk := [], currentChunkPosition := 0 }

/-- Modelled from the spec: the constructor `ResponseState(headers, filePath,
fileSize)`, whose body is not among the sources. A Large state holds the
serialized headers, the opened file, its size, and all cursors at zero. -/
def large (headers file : Bytes) (fileSize : Nat) : ResponseState :=
  { type := .LARGE_RESPONSE, smallResponse := [], closeConnection := false,
    headers := headers, file := file, fileSize := fileSize, bytesSent := 0, headersSent := 0,
    isHeaderSent := false, currentChunk := [], currentChunkPosition := 0 }

/-- Modelled from the spec: `ResponseState::isFinished`, whose body is not among
the sources. Small: bytes-sent ≥ total. Large: header-sent and
bytes-read-from-file ≥ total-size (the caller emits the terminator when this
holds). -/
def isFinished (r : ResponseState) : Bool :=
  match r.type with
  | .SMALL_RESPONSE => decide (r.smallResponse.length ≤ r.bytesSent)
  | .LARGE_RESPONSE => r.isHeaderSent && decide (r.fileSize ≤ r.bytesSent)

/-- The frame of one chunk: hex length, CRLF, payload, CRLF. -/
def frameChunk (payload : Bytes) : Bytes :=
  Nat.toDigits 16 payload.length ++ "\r\n".toList ++ payload ++ "\r\n".toList

/-- Modelled from the spec: `ResponseState::getNextChunk`, whose body is not
among the sources. While the cursor is inside the current chunk that chunk is
returned again; when the cursor is at zero the next chunk is read from the
file (up to `CHUNK_SIZE` bytes) and framed. -/
def getNextChunk (r : ResponseState) : ResponseState × Bytes :=
  if r.currentChunkPosition = 0 then
    let payload := (r.file.drop r.bytesSent).take CHUNK_SIZE
    let chunk := frameChunk payload
    ({ r with currentChunk := chunk, bytesSent := r.bytesSent + payload.length }, chunk)
  else (r, r.currentChunk)

end ResponseState

/-! ## `ClientState`, `CgiState`, the reactor -/

/-- Modelled from the spec: the class `ClientState`, which is not among the
sources: client handle, accumulated read buffer, last-activity timestamp and
request count of one connection. -/
structure ClientState where
  fd : Int
  requestBuffer : Bytes
  lastRequestTime : Nat
  requestCount : Nat
deriving DecidableEq, Repr

namespace ClientState

/-- Modelled from the spec: `ClientState::resetClientState`, which is not among
the sources: empties the buffer so the connection may serve another request. -/
def resetClientState (c : ClientState) : ClientState := { c with requestBuffer := [] }

/-- Modelled from the spec: `ClientState::isTimedOut`, which is not among the
sources: the last activity is older than the keepalive timeout (seconds; clock
values are nanoseconds). -/
def isTimedOut (c : ClientState) (now timeout : Nat) : Bool :=
  decide (timeout * 1000000000 < now - c.lastRequestTime)

end ClientState

/-- The class `CgiState` (constructor at the end of src/Server.cpp). Clock values
are nanoseconds of the steady clock. -/
structure CgiState where
  pid : Int
  pipeReadFd : Int
  clientSocket : Int
  cgiResponseMessage : Bytes
  startTime : Nat
deriving DecidableEq, Repr

/-- The function `CgiState::isTimedOut`: the age, cast to whole seconds, exceeds
the timeout. -/
def CgiState.isTimedOut (c : CgiState) (now timeout : Nat) : Bool :=
  decide ((now - c.startTime) / 1000000000 > timeout)

/-- The kqueue filters used by the server. -/
inductive Filter where
  | EVFILT_READ
  | EVFILT_WRITE
deriving DecidableEq, Repr

/-- The system calls (and reactor calls) a server operation issues. -/
inductive SysCall where
  | registerEvent (fd : Int) (filter : Filter)
  | unregisterEvent (fd : Int) (filter : Filter)
  | close (fd : Int)
  | send (fd : Int) (data : Bytes) (result : Int)
  | kill (pid : Int)
deriving DecidableEq, Repr

/-- The class `Server`: the three maps, the interest set of the reactor `_kq`,
and the trace of calls issued so far. -/
structure Server where
  socket : Int
  keepalive_timeout : Nat
  clients : List (Int × ClientState)
  responses : List (Int × ResponseState)
  cgiStates : List (Int × CgiState)
  interest : List (Int × Filter)
  trace : List SysCall
deriving DecidableEq, Repr

namespace Server

/-- Modelled from the spec: `KqueueManager::registerEvent`, which is not among
the sources: idempotent registration of interest. -/
def registerEvent (s : Server) (fd : Int) (filter : Filter) : Server :=
  { s with
    interest := if (fd, filter) ∈ s.interest then s.interest else s.interest ++ [(fd, filter)]
    trace := s.trace ++ [.registerEvent fd filter] }

/-- Modelled from the spec: `KqueueManager::unregisterEvent`, which is not among
the sources: removes interest, safe for unregistered pairs. -/
def unregisterEvent (s : Server) (fd : Int) (filter : Filter) : Server :=
  { s with
    interest := s.interest.filter (fun p => decide (p ≠ (fd, filter)))
    trace := s.trace ++ [.unregisterEvent fd filter] }

/-- The system call `close`. -/
def close (s : Server) (fd : Int) : Server :=
  { s with trace := s.trace ++ [.close fd] }

/-- The system call `kill(pid, SIGKILL)`. -/
def kill (s : Server) (pid : Int) : Server :=
  { s with trace := s.trace ++ [.kill pid] }

/-- The function `Server::removeClient`. -/
def removeClient (s : Server) (clientSocket : Int) : Server :=
  match mapFind s.clients clientSocket with
  | none => s
  | some _ =>
    let s := s.unregisterEvent clientSocket .EVFILT_READ
    { s with clients := mapErase s.clients clientSocket }

/-- The function `Server::getStatusMessage`. -/
def getStatusMessage (statusCode : Int) : Bytes :=
  let statusCodeMessages : List (Int × Bytes) :=
    [ (400, "Bad Request".toList),
      (411, "Length Required".toList),
      (413, "Request Entity Too Large".toList),
      (414, "Request-URI Too Large".toList),
      (500, "Internal Server Error".toList),
      (501, "Not Implemented".toList),
      (503, "Service Unavailable".toList),
      (504, "Gateway Timeout".toList),
      (505, "HTTP Version Not Supported".toList) ]
  match mapFind statusCodeMessages statusCode with
  | none => []
  | some m => m

/-- The type of `HttpResponse::generateStandardErrorResponse(statusCode,
statusMessage, title, detail)`, whose body is not among the sources; the
operations that call it take it as the parameter `gen`. -/
abbrev ErrorPage := Bytes → Bytes → Bytes → Bytes → HttpResponse

/-- The function `Server::handleInvalidRequest`. -/
def handleInvalidRequest (gen : ErrorPage) (s : Server) (clientSocket : Int)
    (requestStatusCode : Int) (detail : Bytes) : Server :=
  let statusCode := to_string requestStatusCode
  let statusMessage := getStatusMessage requestStatusCode
  let s := s.removeClient clientSocket
  let response := gen statusCode statusMessage (statusCode ++ " ".toList ++ statusMessage) detail
  let responseState := ResponseState.small response.buildResponse true
  let s := { s with responses := mapAssign intLess s.responses clientSocket responseState }
  s.registerEvent clientSocket .EVFILT_WRITE

/-- The macro `CGI_MAX_OUTPUT_SIZE`, whose definition is not among the sources.
Modelled from the spec: CgiMaxOutputBytes is 2 MiB. -/
def CGI_MAX_OUTPUT_SIZE : Nat := 2097152

/-- The macro `CGI_TIMEOUT`, whose definition is not among the sources.
Modelled from the spec: CgiTimeout is 10 s. -/
def CGI_TIMEOUT : Nat := 10

/-- The detail text of the 500 response of `handleCgiOutput`. -/
def cgiOverflowDetail : Bytes :=
  "The CGI script's output exceeded the maximum allowed size of 2 MB and was terminated.".toList

/-- The detail text of the 504 response of `checkForCgiTimeouts`. -/
def cgiTimeoutDetail : Bytes :=
  "The CGI script failed to complete in a timely manner. Please try again later.".toList

/-- The function `Server::acceptNewConnection`; `clientSocket` is the result of
`accept` and `now` the clock read by the `ClientState` constructor. -/
def acceptNewConnection (s : Server) (clientSocket : Int) (now : Nat) : Server :=
  if clientSocket < 0 then s
  else
    let clientState : ClientState :=
      { fd := clientSocket, requestBuffer := [], lastRequestTime := now, requestCount := 0 }
    let s := { s with clients := mapAssign intLess s.clients clientSocket clientState }
    s.registerEvent clientSocket .EVFILT_READ

/-- The function `Server::handleClientDisconnection`. -/
def handleClientDisconnection (s : Server) (clientSocket : Int) : Server :=
  let s := s.unregisterEvent clientSocket .EVFILT_READ
  let s := { s with clients := mapErase s.clients clientSocket }
  let s :=
    if mapCount s.responses clientSocket > 0 then
      let s := s.unregisterEvent clientSocket .EVFILT_WRITE
      { s with responses := mapErase s.responses clientSocket }
    else s
  s.close clientSocket

/-- The conversion of the `ssize_t` result of `recv` to the `size_t` variable
`bytesRead` (64-bit). -/
def toSizeT (r : Int) : Nat := (r % 2 ^ 64).toNat

/-- The function `Server::handleClientRequest`. `recvResult` is the value `recv`
returns, `buffer` the receive buffer, `now` the clock. The parameter
`processIncomingData server clientSocket buffer bytesRead` stands for
`ClientState::processIncomingData`, which is not among the sources. The result
is `none` when `_clients[clientSocket]` is a null pointer that is dereferenced. -/
def handleClientRequest (processIncomingData : Server → Int → Bytes → Nat → Server)
    (s : Server) (clientSocket : Int) (recvResult : Int) (buffer : Bytes) (now : Nat) :
    Option Server :=
  let bytesRead : Nat := toSizeT recvResult
  let s :=
    if bytesRead < 0 then (s.removeClient clientSocket).close clientSocket
    else s
  if bytesRead > 0 then
    match mapFind s.clients clientSocket with
    | none => none
    | some client =>
      let client := { client with lastRequestTime := now, requestCount := client.requestCount + 1 }
      let s := { s with clients := mapAssign intLess s.clients clientSocket client }
      some (processIncomingData s clientSocket buffer bytesRead)
  else some s

/-- The response `handleCgiOutput` builds at the end of the CGI output. -/
def cgiResponse (body : Bytes) : HttpResponse :=
  let response := HttpResponse.new
  let response := response.setVersion "HTTP/1.1".toList
  let response := response.setStatusCode (to_string 200)
  let response := response.setStatusMessage "OK".toList
  let response := response.setBody body
  let response := response.setHeader "Content-Length".toList (to_string response.getBody.length)
  let response := response.setHeader "Content-Type".toList "text/plain".toList
  let response := response.setHeader "Server".toList "Nginx 2.0".toList
  response.setHeader "Connection".toList "keep-alive".toList

/-- The function `Server::handleCgiOutput`. `bytesRead` is the value `read`
returns and `buffer` the bytes it stored. The result is `none` when a null
pointer (`_cgiStates[pipeReadFd]` or `_clients[...]` of an absent key) is
dereferenced. -/
def handleCgiOutput (gen : ErrorPage) (s : Server) (pipeReadFd : Int)
    (bytesRead : Int) (buffer : Bytes) : Option Server :=
  if bytesRead < 0 then some s
  else if bytesRead = 0 then
    match mapFind s.cgiStates pipeReadFd with
    | none => none
    | some cgiState =>
      let response := cgiResponse cgiState.cgiResponseMessage
      let responseState := ResponseState.small response.buildResponse false
      match mapFind s.clients cgiState.clientSocket with
      | none => none
      | some client =>
        let client := client.resetClientState
        let s := { s with clients := mapAssign intLess s.clients cgiState.clientSocket client }
        let s := { s with
          responses := mapAssign intLess s.responses cgiState.clientSocket responseState }
        let s := s.registerEvent cgiState.clientSocket .EVFILT_WRITE
        let s := s.unregisterEvent pipeReadFd .EVFILT_READ
        let s := { s with cgiStates := mapErase s.cgiStates pipeReadFd }
        some (s.close pipeReadFd)
  else
    match mapFind s.cgiStates pipeReadFd with
    | none => none
    | some cgiState =>
      let cgiState := { cgiState with
        cgiResponseMessage := cgiState.cgiResponseMessage ++ buffer.take bytesRead.toNat }
      let s := { s with cgiStates := mapAssign intLess s.cgiStates pipeReadFd cgiState }
      if cgiState.cgiResponseMessage.length > CGI_MAX_OUTPUT_SIZE then
        let s := s.unregisterEvent pipeReadFd .EVFILT_READ
        let s := handleInvalidRequest gen s cgiState.clientSocket 500 cgiOverflowDetail
        let s := s.kill cgiState.pid
        let s := { s with cgiStates := mapErase s.cgiStates pipeReadFd }
        some (s.close pipeReadFd)
      else some s

/-- The system call `send(fd, ptr, len, 0)` with its result; `data` is the run
of `len` bytes at `ptr`. -/
def send (s : Server) (fd : Int) (data : Bytes) (result : Int) : Server :=
  { s with trace := s.trace ++ [.send fd data result] }

/-- The `len` bytes a call reads at a pointer into the buffer of a
`std::string`; `ptr` is the part of the string from the pointer on. Past the
end of the string the bytes are NUL: the first is the terminator of `c_str()`,
the following ones stand for what lies outside the buffer. The run always has
`len` bytes, so it shows the length the call was given. -/
def readBytes (ptr : Bytes) (len : Nat) : Bytes :=
  ptr.take len ++ List.replicate (len - ptr.length) '\x00'

/-- The `size_t` subtraction `a - b` (64-bit, wrapping). -/
def subSizeT (a b : Nat) : Nat := (a + 2 ^ 64 - b % 2 ^ 64) % 2 ^ 64

/-- The function `Server::sendSmallResponse`. `responseState` is the pointee of
`_responses[clientSocket]`; `sendResult` is the value `send` returns. -/
def sendSmallResponse (s : Server) (clientSocket : Int) (responseState : ResponseState)
    (sendResult : Int) : Server :=
  let response := responseState.smallResponse
  let totalLength := response.length
  let remainingLength := subSizeT totalLength responseState.bytesSent
  let responsePtr := response.drop responseState.bytesSent
  let s := s.send clientSocket (readBytes responsePtr remainingLength) sendResult
  if sendResult < 0 then
    let s := s.unregisterEvent clientSocket .EVFILT_WRITE
    { s with responses := mapErase s.responses clientSocket }
  else
    let responseState := { responseState with
      bytesSent := responseState.bytesSent + sendResult.toNat }
    let s := { s with responses := mapAssign intLess s.responses clientSocket responseState }
    if responseState.isFinished then
      let s := s.unregisterEvent clientSocket .EVFILT_WRITE
      let s := { s with responses := mapErase s.responses clientSocket }
      if responseState.closeConnection then s.close clientSocket else s
    else s

/-- The function `Server::sendLargeResponseHeaders`. -/
def sendLargeResponseHeaders (s : Server) (clientSocket : Int) (responseState : ResponseState)
    (sendResult : Int) : Server :=
  let headers := responseState.headers
  let totalLength := headers.length
  let remainingLength := subSizeT totalLength responseState.headersSent
  let headersPtr := headers.drop responseState.headersSent
  let s := s.send clientSocket (readBytes headersPtr remainingLength) sendResult
  if sendResult < 0 then
    let s := s.unregisterEvent clientSocket .EVFILT_WRITE
    { s with responses := mapErase s.responses clientSocket }
  else
    let responseState := { responseState with
      headersSent := responseState.headersSent + sendResult.toNat }
    let responseState :=
      if responseState.headersSent ≥ totalLength then
        { responseState with isHeaderSent := true }
      else responseState
    { s with responses := mapAssign intLess s.responses clientSocket responseState }

/-- The end chunk of a chunked body. -/
def endChunk : Bytes := "0\r\n\r\n".toList

/-- The function `Server::sendLargeResponseChunk`. `sendResult` is the value
the `send` of the chunk returns, `endResult` the value the `send` of the end
chunk returns when that call is made. -/
def sendLargeResponseChunk (s : Server) (clientSocket : Int) (responseState : ResponseState)
    (sendResult endResult : Int) : Server :=
  let (responseState, chunk) := responseState.getNextChunk
  let s := { s with responses := mapAssign intLess s.responses clientSocket responseState }
  let totalLength := chunk.length
  let remainingLength := subSizeT totalLength responseState.currentChunkPosition
  let chunkPtr := chunk.drop responseState.currentChunkPosition
  let s := s.send clientSocket (readBytes chunkPtr remainingLength) sendResult
  if sendResult < 0 then
    let s := s.unregisterEvent clientSocket .EVFILT_WRITE
    { s with responses := mapErase s.responses clientSocket }
  else
    let responseState := { responseState with
      currentChunkPosition := responseState.currentChunkPosition + sendResult.toNat }
    if responseState.currentChunkPosition ≥ totalLength then
      let responseState := { responseState with currentChunkPosition := 0 }
      let s := { s with responses := mapAssign intLess s.responses clientSocket responseState }
      if responseState.isFinished then
        let s := s.send clientSocket endChunk endResult
        if endResult < 0 then
          let s := s.unregisterEvent clientSocket .EVFILT_WRITE
          { s with responses := mapErase s.responses clientSocket }
        else
          let s := s.unregisterEvent clientSocket .EVFILT_WRITE
          { s with responses := mapErase s.responses clientSocket }
      else s
    else
      { s with responses := mapAssign intLess s.responses clientSocket responseState }

/-- The function `Server::sendLargeResponse`. -/
def sendLargeResponse (s : Server) (clientSocket : Int) (responseState : ResponseState)
    (sendResult endResult : Int) : Server :=
  if !responseState.isHeaderSent then
    sendLargeResponseHeaders s clientSocket responseState sendResult
  else
    sendLargeResponseChunk s clientSocket responseState sendResult endResult

/-- The function `Server::handleClientResponse`. -/
def handleClientResponse (s : Server) (clientSocket : Int) (sendResult endResult : Int) :
    Server :=
  if mapCount s.responses clientSocket = 0 then
    s.unregisterEvent clientSocket .EVFILT_WRITE
  else
    match mapFind s.responses clientSocket with
    | none => s
    | some responseState =>
      match responseState.type with
      | .SMALL_RESPONSE => sendSmallResponse s clientSocket responseState sendResult
      | .LARGE_RESPONSE => sendLargeResponse s clientSocket responseState sendResult endResult

/-- The loop of `Server::checkForTimeouts` over the entries of `_clients`. -/
def checkForTimeoutsLoop (now : Nat) : List (Int × ClientState) → Server → Server
  | [], s => s
  | (fd, client) :: rest, s =>
    if client.isTimedOut now s.keepalive_timeout then
      let s := s.unregisterEvent fd .EVFILT_READ
      let s := s.close fd
      let s := { s with clients := mapErase s.clients fd }
      checkForTimeoutsLoop now rest s
    else checkForTimeoutsLoop now rest s

/-- The function `Server::checkForTimeouts`; `now` is the clock. -/
def checkForTimeouts (s : Server) (now : Nat) : Server :=
  checkForTimeoutsLoop now s.clients s

/-- The loop of `Server::checkForCgiTimeouts` over the entries of `_cgiStates`. -/
def checkForCgiTimeoutsLoop (gen : ErrorPage) (now : Nat) :
    List (Int × CgiState) → Server → Server
  | [], s => s
  | (fd, cgi) :: rest, s =>
    if cgi.isTimedOut now CGI_TIMEOUT then
      let s := s.unregisterEvent fd .EVFILT_READ
      let s := s.close fd
      let s := s.kill cgi.pid
      let s := handleInvalidRequest gen s cgi.clientSocket 504 cgiTimeoutDetail
      let s := { s with cgiStates := mapErase s.cgiStates fd }
      checkForCgiTimeoutsLoop gen now rest s
    else checkForCgiTimeoutsLoop gen now rest s

/-- The function `Server::checkForCgiTimeouts`; `now` is the clock. -/
def checkForCgiTimeouts (gen : ErrorPage) (s : Server) (now : Nat) : Server :=
  checkForCgiTimeoutsLoop gen now s.cgiStates s

end Server

/-! ## The event loop (src/ServerManager.cpp) -/

/-- The numeric code of a filter in `struct kevent` (`<sys/event.h>`). -/
def Filter.code : Filter → Int
  | .EVFILT_READ => -1
  | .EVFILT_WRITE => -2

/-- The fields of `struct kevent` the loop reads. -/
structure Kevent where
  ident : Int
  filter : Int
  flags : Nat
deriving DecidableEq, Repr

/-- The state of the loop: the servers (any state `σ`) and, as a ghost field,
the events handed to `processReadEvent` or `processWriteEvent` so far. -/
structure Loop (σ : Type) where
  servers : σ
  dispatched : List Kevent

/-- A loop `for (int ev = start; ev < nev; ev++) body(ev)`; `fuel` bounds the
number of iterations. -/
def forLoop {σ : Type} (body : Nat → σ → σ) (nev : Nat) : Nat → Nat → σ → σ
  | 0, _, st => st
  | fuel + 1, ev, st => if ev < nev then forLoop body nev fuel (ev + 1) (body ev st) else st

/-- One call of a handler on `kqueue.events[ev]`, logged in the ghost field. -/
def dispatch {σ : Type} (handler : Kevent → σ → σ) (event : Kevent) (l : Loop σ) : Loop σ :=
  { servers := handler event l.servers, dispatched := l.dispatched ++ [event] }

/-- The two passes of `ServerManager::start` over the `nev` events of one
`waitForEvents` call. `events` is the array `kqueue.events`. -/
def startBatch {σ : Type} (processReadEvent processWriteEvent : Kevent → σ → σ)
    (events : List Kevent) (nev : Nat) (l : Loop σ) : Loop σ :=
  let l := forLoop (fun ev l =>
      match events.get? ev with
      | some e => if e.filter = Filter.code .EVFILT_READ then dispatch processReadEvent e l else l
      | none => l) nev nev 0 l
  forLoop (fun ev l =>
      match events.get? ev with
      | some e => if e.filter = Filter.code .EVFILT_WRITE then dispatch processWriteEvent e l else l
      | none => l) nev nev 0 l

/-! ## Runs of send calls and what the socket sees -/

/-- Successive writable events for `clientSocket`: one `handleClientResponse`
call per send result. -/
def Server.sendRun (s : Server) (clientSocket : Int) : List Int → Server
  | [] => s
  | r :: rest => Server.sendRun (s.handleClientResponse clientSocket r 0) clientSocket rest

/-- The byte runs offered to the socket `fd` by the `send` calls of a trace. -/
def offeredRuns (fd : Int) : List SysCall → List Bytes
  | [] => []
  | .send fd' data _ :: rest =>
    if fd' = fd then data :: offeredRuns fd rest else offeredRuns fd rest
  | _ :: rest => offeredRuns fd rest

/-- The bytes the socket `fd` accepted over the `send` calls of a trace: of each
offered run, as many bytes as the call returned. -/
def acceptedBytes (fd : Int) : List SysCall → Bytes
  | [] => []
  | .send fd' data r :: rest =>
    if fd' = fd then data.take r.toNat ++ acceptedBytes fd rest else acceptedBytes fd rest
  | _ :: rest => acceptedBytes fd rest

/-- A sequence of successful send results for a response of `total` bytes with
the cursor at `sent`: each result `n` satisfies `0 ≤ n ≤ total - sent`, and a
further call is made only while the response is unfinished. -/
def validSends (total : Nat) : Nat → List Int → Bool
  | _, [] => true
  | sent, n :: rest =>
    decide (0 ≤ n) && decide (n.toNat ≤ total - sent) &&
      (rest.isEmpty || (decide (sent + n.toNat < total) && validSends total (sent + n.toNat) rest))

/-- The suffixes `response[sent..]` at the successive cursors of a run. -/
def suffixesAt (response : Bytes) : Nat → List Int → List Bytes
  | _, [] => []
  | sent, n :: rest => response.drop sent :: suffixesAt response (sent + n.toNat) rest

/-! ## Sample states -/

/-- A sample error page generator: status line and detail as the body. -/
def demoGen : Server.ErrorPage := fun statusCode statusMessage _ detail =>
  ((HttpResponse.new.setVersion "HTTP/1.1".toList).setStatusCode statusCode
    |>.setStatusMessage statusMessage).setBody detail

/-- A sample Small response of five bytes that closes the connection. -/
def demoSmall : ResponseState := ResponseState.small "hello".toList true

/-- A sample client on handle 5. -/
def demoClient : ClientState :=
  { fd := 5, requestBuffer := [], lastRequestTime := 0, requestCount := 0 }

/-- A sample server: client 5 with `demoSmall` in flight. -/
def demoServer : Server :=
  { socket := 3, keepalive_timeout := 60, clients := [(5, demoClient)],
    responses := [(5, demoSmall)], cgiStates := [],
    interest := [(5, Filter.EVFILT_READ), (5, Filter.EVFILT_WRITE)], trace := [] }

/-- A sample Large response in the chunk phase: headers sent, a file of three
bytes not yet read. -/
def demoLarge : ResponseState :=
  { ResponseState.large "HTTP/1.1 200 OK\r\nTransfer-Encoding: chunked\r\n\r\n".toList
      "abc".toList 3 with headersSent := 47, isHeaderSent := true }

/-- A sample server: client 5 with `demoLarge` in flight. -/
def demoLargeServer : Server := { demoServer with responses := [(5, demoLarge)] }

/-- A sample Large response in the header phase. -/
def demoLargeHeaders : ResponseState :=
  ResponseState.large "HTTP/1.1 200 OK\r\nTransfer-Encoding: chunked\r\n\r\n".toList
    "abc".toList 3

/-- A sample CGI state on pipe 7, owned by client 5, with output `hi`. -/
def demoCgi : CgiState :=
  { pid := 100, pipeReadFd := 7, clientSocket := 5, cgiResponseMessage := "hi".toList,
    startTime := 0 }

/-- A sample server: client 5 waiting for the CGI child on pipe 7. -/
def demoCgiServer : Server :=
  { socket := 3, keepalive_timeout := 60, clients := [(5, demoClient)], responses := [],
    cgiStates := [(7, demoCgi)],
    interest := [(5, Filter.EVFILT_READ), (7, Filter.EVFILT_READ)], trace := [] }

/-- A sample CGI state one byte below the output limit. -/
def demoCgiFull : CgiState :=
  { pid := 100, pipeReadFd := 7, clientSocket := 5,
    cgiResponseMessage := List.replicate 2097151 'a', startTime := 0 }

/-- A sample server whose CGI child on pipe 7 is one byte below the limit. -/
def demoCgiFullServer : Server := { demoCgiServer with cgiStates := [(7, demoCgiFull)] }

/-- The invariant of the cgi map: every accumulated output is at most
`CGI_MAX_OUTPUT_SIZE` bytes long. -/
def cgiOutputBounded (s : Server) : Prop :=
  ∀ (fd : Int) (cgi : CgiState), mapFind s.cgiStates fd = some cgi →
    cgi.cgiResponseMessage.length ≤ Server.CGI_MAX_OUTPUT_SIZE

/-- The invariant of `responses`: every handle with a response is a key of
`clients`, or its response carries close-after-send. -/
def responsesOwned (s : Server) : Bool :=
  s.responses.all (fun p => (mapFind s.clients p.1).isSome || p.2.closeConnection)

/-- A sample keepalive response: five bytes, connection kept open. -/
def demoKeepalive : ResponseState := ResponseState.small "hello".toList false

/-- A sample server: client 5, last active at time 0, with `demoKeepalive` in
flight; the keepalive timeout is 60 s. -/
def demoIdleServer : Server := { demoServer with responses := [(5, demoKeepalive)] }

/-! ## `std::string` searches and streams -/

/-- Whether `s` begins with `pat`. -/
def startsWith : Bytes → Bytes → Bool
  | [], _ => true
  | _ :: _, [] => false
  | p :: ps, c :: cs => decide (p = c) && startsWith ps cs

/-- The `find(pat)` of `std::string`: the position of the first occurrence of
`pat`, or `none` for `npos`. -/
def strFind (pat : Bytes) : Bytes → Option Nat
  | [] => if startsWith pat [] then some 0 else none
  | c :: cs =>
    if startsWith pat (c :: cs) then some 0
    else
      match strFind pat cs with
      | some n => some (n + 1)
      | none => none

/-- The `find(c)` of `std::string` for one character. -/
def strFindChar (c : Char) : Bytes → Option Nat
  | [] => none
  | x :: xs =>
    if x = c then some 0
    else
      match strFindChar c xs with
      | some n => some (n + 1)
      | none => none

/-- The pieces of a string between the occurrences of a delimiter. -/
def splitOn (delim : Char) : Bytes → List Bytes
  | [] => [[]]
  | c :: cs =>
    if c = delim then [] :: splitOn delim cs
    else
      match splitOn delim cs with
      | [] => [[c]]
      | p :: ps => (c :: p) :: ps

/-- The tokens that successive `std::getline(ss, token, delim)` calls extract
from a stream holding `s`, until the call fails: the pieces between the
delimiters, without a last empty piece (at the end of the stream nothing is
extracted and the call fails). -/
def getlines (s : Bytes) (delim : Char) : List Bytes :=
  let pieces := splitOn delim s
  if pieces.getLast? = some [] then pieces.dropLast else pieces

/-- The `std::transform(..., ::tolower)` of a string. -/
def toLower (s : Bytes) : Bytes := s.map Char.toLower

/-! ## Binary floating point (for `std::stof`) -/

/-- The quotient `n / d` rounded to the nearest integer, ties to even. -/
def roundHalfEven (n d : Nat) : Nat :=
  let q := n / d
  let r := n % d
  if 2 * r < d then q
  else if d < 2 * r then q + 1
  else if q % 2 = 0 then q else q + 1

/-- The least `j ≤ fuel` with `d ≤ n * 2 ^ j`. -/
def shiftUp (n d : Nat) : Nat → Nat
  | 0 => 0
  | fuel + 1 => if d ≤ n then 0 else 1 + shiftUp (2 * n) d fuel

/-- A binary floating-point value `mant / 2 ^ shift`. -/
structure Binary where
  mant : Nat
  shift : Nat
deriving DecidableEq, Repr

/-- The comparison `a < b` of two floating-point values. -/
def Binary.lt (a b : Binary) : Bool := decide (a.mant * 2 ^ b.shift < b.mant * 2 ^ a.shift)

/-- The comparison `a ≤ b` of two floating-point values. -/
def Binary.le (a b : Binary) : Bool := decide (a.mant * 2 ^ b.shift ≤ b.mant * 2 ^ a.shift)

/-- The number of halvings that bring `n` below 2 (at most `fuel`): the floor
of the binary logarithm of `n ≥ 1`. -/
def log2Floor (n : Nat) : Nat → Nat
  | 0 => 0
  | fuel + 1 => if n < 2 then 0 else 1 + log2Floor (n / 2) fuel

/-- The decimal `n / d` (below `2 ^ p`) rounded to a binary floating-point
format with `p` significant bits, to nearest, ties to even. -/
def roundBinary (p n d : Nat) : Binary :=
  if n = 0 then { mant := 0, shift := 0 }
  else
    let k := if d ≤ n then p - 1 - log2Floor (n / d) 64 else p - 1 + shiftUp n d 64
    { mant := roundHalfEven (n * 2 ^ k) d, shift := k }

/-- The `float` (24 significant bits) nearest to the decimal `n / d`. -/
def toFloat (n d : Nat) : Binary := roundBinary 24 n d

/-- The `double` (53 significant bits) nearest to the decimal `n / d`. -/
def toDouble (n d : Nat) : Binary := roundBinary 53 n d

/-- The value of a decimal digit character. -/
def digitValue (c : Char) : Nat := c.toNat - '0'.toNat

/-! ## `HttpRequest` (src/HttpRequest.cpp) -/

/-- The ways a call can leave the defined behaviour of the program: the two
exceptions thrown by the parser, an index past the end of a vector, and the
dereference of an `end()` iterator. -/
inductive Fault where
  | errorWhileGettingTheRequest
  | missingHttpRequestType
  | vectorIndexOutOfRange
  | endIteratorDereferenced
deriving DecidableEq, Repr

/-- The class `HttpRequest`. -/
structure HttpRequest where
  status : Int
  method : Bytes
  uri : Bytes
  version : Bytes
  host : Bytes
  headers : List (Bytes × Bytes)
  recursionDepth : Nat
deriving DecidableEq, Repr

/-- The `insert(pair)` of `std::map`: inserts the pair at its place in key
order unless the key is already present. -/
def mapInsert {κ α : Type} [DecidableEq κ] (lt : κ → κ → Bool)
    (m : List (κ × α)) (k : κ) (v : α) : List (κ × α) :=
  match m with
  | [] => [(k, v)]
  | (k', v') :: rest =>
    if k = k' then (k', v') :: rest
    else if lt k k' then (k, v) :: (k', v') :: rest
    else (k', v') :: mapInsert lt rest k v

namespace HttpRequest

def setStatus (r : HttpRequest) (statusNum : Int) : HttpRequest := { r with status := statusNum }

def getStatus (r : HttpRequest) : Int := r.status

def setMethod (r : HttpRequest) (str : Bytes) : HttpRequest := { r with method := str }

def setUri (r : HttpRequest) (str : Bytes) : HttpRequest := { r with uri := str }

def setVersion (r : HttpRequest) (str : Bytes) : HttpRequest := { r with version := str }

def setHost (r : HttpRequest) (hostName : Bytes) : HttpRequest := { r with host := hostName }

def getHost (r : HttpRequest) : Bytes := r.host

def getUri (r : HttpRequest) : Bytes := r.uri

def getMethod (r : HttpRequest) : Bytes := r.method

def getVersion (r : HttpRequest) : Bytes := r.version

/-- The function `HttpRequest::getHeader`. -/
def getHeader (r : HttpRequest) (key : Bytes) : Bytes :=
  match mapFind r.headers key with
  | some v => v
  | none => []

/-- The function `HttpRequest::validateUri`. -/
def validateUri (str : Bytes) : Bool :=
  if str.isEmpty || (strFind "/".toList str).isNone then false else true

/-- The function `HttpRequest::checkVersionNumber`; the result is the returned
Boolean and the request with the status it may have set. -/
def checkVersionNumber (r : HttpRequest) (str : Bytes) : Bool × HttpRequest :=
  match str with
  | [a, b, c] =>
    if a.isDigit && decide (b = '.') && c.isDigit then
      let version := toFloat (10 * digitValue a + digitValue c) 10
      if version.lt (toFloat 1 1) then (false, r)
      else if (toFloat 1 1).le version && version.le (toDouble 19 10) then (true, r)
      else (false, r.setStatus 505)
    else (false, r)
  | _ => (false, r)

/-- The loop of `validateVersion` over the tokens between `/`. -/
def validateVersionLoop (r : HttpRequest) : Nat → List Bytes → Bool × HttpRequest
  | _, [] => (true, r)
  | i, token :: rest =>
    if i = 0 && token != "HTTP".toList then (false, r.setStatus 400)
    else if i = 1 then
      match checkVersionNumber r token with
      | (false, r) => (false, r.setStatus 505)
      | (true, r) => validateVersionLoop r (i + 1) rest
    else validateVersionLoop r (i + 1) rest

/-- The function `HttpRequest::validateVersion`. -/
def validateVersion (r : HttpRequest) (version : Bytes) : Bool × HttpRequest :=
  if version.isEmpty || (strFind "/".toList version).isNone ||
      (strFind ".".toList version).isNone then (false, r.setStatus 400)
  else if version.count '.' ≠ 1 then (false, r.setStatus 400)
  else validateVersionLoop r 0 (getlines version '/')

/-- The vector `possibleHttpRequests` of `validateRequestLine`. -/
def possibleHttpRequests : List Bytes := ["GET".toList, "POST".toList, "DELETE".toList]

/-- The loop of `validateRequestLine` over the tokens between spaces; `i` is
the counter of non-empty tokens. The result is `none` for `return false`. -/
def validateRequestLineLoop :
    HttpRequest → Nat → List Bytes → (Option Nat) × HttpRequest
  | r, i, [] => (some i, r)
  | r, i, token :: rest =>
    if i = 0 && !(possibleHttpRequests.contains token) then (none, r.setStatus 400)
    else
      let r := if i = 0 && !token.isEmpty then r.setMethod token else r
      if i = 1 && !token.isEmpty && !validateUri token then (none, r.setStatus 400)
      else
        let r := if i = 1 && !token.isEmpty then r.setUri token else r
        if i = 2 && !token.isEmpty then
          match validateVersion r token with
          | (false, r) => (none, r)
          | (true, r) =>
            let r := r.setVersion token
            validateRequestLineLoop r (i + 1) rest
        else
          validateRequestLineLoop r (if !token.isEmpty then i + 1 else i) rest

/-- The function `HttpRequest::validateRequestLine`. -/
def validateRequestLine (r : HttpRequest) (requestLine : Bytes) :
    Except Fault (Bool × HttpRequest) :=
  if requestLine.isEmpty then .error .missingHttpRequestType
  else
    match validateRequestLineLoop r 0 (getlines requestLine ' ') with
    | (none, r) => .ok (false, r)
    | (some i, r) => if i ≠ 3 then .ok (false, r.setStatus 400) else .ok (true, r)

/-- The function `HttpRequest::checkDuplicatedHost`: false when a key of the
header map is `host` in lower case. -/
def checkDuplicatedHost (r : HttpRequest) : Bool :=
  !(r.headers.any (fun kv => toLower kv.1 == "host".toList))

/-- The function `HttpRequest::searchForHost`. -/
def searchForHost (r : HttpRequest) : Bool :=
  r.headers.any (fun kv => toLower kv.1 == "host".toList)

/-- The start position `find(':') + 1` of a `substr`: `npos + 1` wraps to 0. -/
def afterColon (s : Bytes) : Nat :=
  match strFindChar ':' s with
  | some n => n + 1
  | none => 0

/-- The function `HttpRequest::validateHost`; the second component is the
argument `hostName` after the call. -/
def validateHost (hostName : Bytes) : Bool × Bytes :=
  let tmp := hostName
  if hostName.isEmpty then (true, [])
  else
    let value := tmp.drop (afterColon tmp)
    if value.isEmpty then (false, hostName)
    else
      let tokens := (getlines value ' ').filter (fun token => !token.isEmpty)
      match tokens with
      | [token] => if token.head? = some ':' then (false, hostName) else (true, token)
      | _ => (false, hostName)

/-- The function `HttpRequest::validateValue`; the second component is the
argument `hostName` after the call. -/
def validateValue (hostName : Bytes) : Bool × Bytes :=
  let tmp := hostName
  if hostName.isEmpty then (true, [])
  else if (strFindChar ':' tmp).isNone && (strFindChar ' ' tmp).isSome then (false, hostName)
  else
    let value := tmp.drop (afterColon tmp)
    if value.isEmpty || value == hostName then (true, []) else (true, value)

/-- The loop of `loadRequestContent` over the header lines; `none` is
`return false`. -/
def loadRequestContentLoop : HttpRequest → List Bytes → Option HttpRequest × HttpRequest
  | r, [] => (some r, r)
  | r, line :: rest =>
    let token := line.takeWhile (fun c => c ≠ ':')
    let lowerString := toLower token
    if (strFindChar ' ' token).isSome then (none, r.setStatus 400)
    else
      let checked := if lowerString == "host".toList then validateHost line else validateValue line
      if !checked.1 then (none, r.setStatus 400)
      else if lowerString == "host".toList && !r.checkDuplicatedHost then (none, r.setStatus 400)
      else
        loadRequestContentLoop { r with headers := mapInsert strLess r.headers token checked.2 } rest

/-- The function `HttpRequest::loadRequestContent`. -/
def loadRequestContent (r : HttpRequest) (requestVec : List Bytes) :
    Except Fault (Bool × HttpRequest) :=
  match requestVec with
  | [] => .ok (false, r.setStatus 400)
  | _ :: lines =>
    match loadRequestContentLoop r lines with
    | (none, r) => .ok (false, r)
    | (some _, r) =>
      if !r.searchForHost then .ok (false, r.setStatus 400)
      else
        match mapFind r.headers "Host".toList with
        | none => .error .endIteratorDereferenced
        | some v => .ok (true, r.setHost v)

/-- The loop of `requestTokenizer`: `i` is the loop counter, `tmp` the rest of
the request, `requestVec` the lines so far; `fuel` bounds the iterations. The
result is `none` for the `return false` on an empty line. -/
def requestTokenizerLoop : Nat → Nat → Bytes → List Bytes → Option (List Bytes)
  | 0, _, _, requestVec => some requestVec
  | fuel + 1, i, tmp, requestVec =>
    if i < tmp.length then
      match strFind "\r\n".toList tmp with
      | none => some (requestVec ++ [tmp])
      | some pos =>
        let line := tmp.take pos
        if line.isEmpty then none
        else
          let requestVec := requestVec ++ [line]
          let tmp := tmp.drop (pos + 2)
          if tmp.isEmpty || tmp == "\r\n".toList then some requestVec
          else requestTokenizerLoop fuel (i + 1) tmp requestVec
    else some requestVec

/-- The function `HttpRequest::requestTokenizer`. -/
def requestTokenizer (r : HttpRequest) (requestString : Bytes) :
    Except Fault (Bool × HttpRequest) :=
  match requestTokenizerLoop (requestString.length + 1) 0 requestString [] with
  | none => .ok (false, r.setStatus 400)
  | some requestVec =>
    match requestVec with
    | [] => .error .vectorIndexOutOfRange
    | first :: _ =>
      match validateRequestLine r first with
      | .error e => .error e
      | .ok (false, r) => .ok (false, r)
      | .ok (true, r) =>
        match loadRequestContent r requestVec with
        | .error e => .error e
        | .ok (_, r) => .ok (true, r)

/-- The constructor `HttpRequest(requestStr)`. -/
def parse (requestStr : Bytes) : Except Fault HttpRequest :=
  if requestStr.isEmpty then .error .errorWhileGettingTheRequest
  else
    let r : HttpRequest :=
      { status := 200, method := [], uri := [], version := [], host := [], headers := [],
        recursionDepth := 0 }
    match requestTokenizer r requestStr with
    | .error e => .error e
    | .ok (_, r) => .ok r

end HttpRequest

/-! ## CGI dispatch and the request handlers of `Server` -/

/-- The members of `ServerConfig` the dispatch reads: `root`, the extension
list of `cgiExtension` and its enabled flag. -/
structure ServerConfig where
  root : Bytes
  cgiExtensions : List Bytes
  cgiEnabled : Bool
deriving DecidableEq, Repr

/-- What `RequestHandler::handleRequest` returns, as far as `Server` reads it:
the response, its type, and for a large response the file and its size. -/
structure HandledResponse where
  response : HttpResponse
  type : ResponseType
  file : Bytes
  fileSize : Nat
deriving DecidableEq, Repr

namespace Server

/-- The function `Server::validateFileExtension`, with `_config` as the
parameter `config`. -/
def validateFileExtension (config : ServerConfig) (request : HttpRequest) : Bool :=
  let cgiExten := config.cgiExtensions
  let uri := request.getUri
  match strFindChar '.' uri with
  | none => false
  | some pos => if !(cgiExten.contains (uri.drop pos)) then false else true

/-- The function `Server::validCgiRequest`; `fileExists` is the result of `stat`
on a path. Both callers pass `_config` as `config`. -/
def validCgiRequest (fileExists : Bytes → Bool) (request : HttpRequest)
    (config : ServerConfig) : Bool :=
  if ((strFind "/cgi-bin".toList config.root).isNone &&
        (strFind "/cgi-bin".toList (config.root ++ request.getUri)).isNone) ||
      !fileExists (config.root ++ request.getUri) ||
      !validateFileExtension config request then false
  else true

/-- The parent side of `Server::handleCgiRequest`: `pipeOk` is the success of
`pipe`, `pipeReadFd` and `pipeWriteFd` its two ends, `pid` the result of
`fork`, `fcntlOk` the success of `fcntl`, `now` the clock. A failure of `pipe`
or `fork` returns without any change; after the fork the parent closes the
write end, and a failure of `fcntl` returns there. -/
def handleCgiRequest (s : Server) (clientSocket : Int) (pipeOk : Bool) (pid : Int)
    (pipeReadFd pipeWriteFd : Int) (fcntlOk : Bool) (now : Nat) : Server :=
  if !pipeOk then s
  else if pid < 0 then s
  else
    let s := s.close pipeWriteFd
    if !fcntlOk then s
    else
      let s := s.registerEvent pipeReadFd .EVFILT_READ
      let cgiState : CgiState :=
        { pid := pid, pipeReadFd := pipeReadFd, clientSocket := clientSocket,
          cgiResponseMessage := [], startTime := now }
      { s with cgiStates := mapAssign intLess s.cgiStates pipeReadFd cgiState }

/-- The static branch shared by `processGetRequest` and `processPostRequest`:
reset the client, install the response state, register write interest. The
result is `none` when `_clients[clientSocket]` is a null pointer. -/
def installResponse (s : Server) (clientSocket : Int) (responseState : ResponseState) :
    Option Server :=
  match mapFind s.clients clientSocket with
  | none => none
  | some client =>
    let client := client.resetClientState
    let s := { s with clients := mapAssign intLess s.clients clientSocket client }
    let s := { s with responses := mapAssign intLess s.responses clientSocket responseState }
    some (s.registerEvent clientSocket .EVFILT_WRITE)

/-- The function `Server::processGetRequest` (in the parent process). The
parameter `handleRequest` stands for `RequestHandler::handleRequest`, which is
not among the sources. -/
def processGetRequest (fileExists : Bytes → Bool) (handleRequest : HttpRequest → HandledResponse)
    (config : ServerConfig) (s : Server) (clientSocket : Int) (request : HttpRequest)
    (pipeOk : Bool) (pid pipeReadFd pipeWriteFd : Int) (fcntlOk : Bool) (now : Nat) :
    Option Server :=
  if config.cgiEnabled && validCgiRequest fileExists request config then
    some (handleCgiRequest s clientSocket pipeOk pid pipeReadFd pipeWriteFd fcntlOk now)
  else
    let handled := handleRequest request
    let responseState :=
      match handled.type with
      | .SMALL_RESPONSE => ResponseState.small handled.response.buildResponse false
      | .LARGE_RESPONSE =>
        ResponseState.large handled.response.buildResponse handled.file handled.fileSize
    installResponse s clientSocket responseState

/-- The function `Server::processPostRequest`. -/
def processPostRequest (fileExists : Bytes → Bool) (handleRequest : HttpRequest → HandledResponse)
    (config : ServerConfig) (s : Server) (clientSocket : Int) (request : HttpRequest)
    (closeConnection : Bool) : Option Server :=
  if validCgiRequest fileExists request config then some s
  else
    let handled := handleRequest request
    let responseState := ResponseState.small handled.response.buildResponse closeConnection
    installResponse s clientSocket responseState

end Server

/-! ## The timeout sweep of `ServerManager` -/

/-- The macro `SERVER_TIMEOUT_CHECK_INTERVAL`, whose definition is not among the
sources. Modelled from the spec: ServerTimeoutCheckInterval is 1 s. -/
def SERVER_TIMEOUT_CHECK_INTERVAL : Nat := 1

/-- The function `ServerManager::checkTimeouts`: the servers and
`lastTimeoutCheck` after the call; `now` is the clock (nanoseconds). The sweep
of the CGI states is commented out in the source and so is not part of the
function. -/
def checkTimeouts (servers : List Server) (lastTimeoutCheck now : Nat) : List Server × Nat :=
  if (now - lastTimeoutCheck) / 1000000000 > SERVER_TIMEOUT_CHECK_INTERVAL then
    (servers.map (fun server => server.checkForTimeouts now), now)
  else (servers, lastTimeoutCheck)

/-! ## Sample requests and configurations -/

/-- A sample request object with the given URI. -/
def demoRequest (uri : Bytes) : HttpRequest :=
  { status := 200, method := "POST".toList, uri := uri, version := "HTTP/1.1".toList,
    host := "x".toList, headers := [("Host".toList, "x".toList)], recursionDepth := 0 }

/-- A sample endpoint configuration: CGI enabled for `.py` and `.sh`. -/
def demoConfig : ServerConfig :=
  { root := "/var/www".toList, cgiExtensions := [".py".toList, ".sh".toList], cgiEnabled := true }

/-- A sample static handler: a small 200 response with body `ok`. -/
def demoHandler : HttpRequest → HandledResponse := fun _ =>
  { response := ((HttpResponse.new.setVersion "HTTP/1.1".toList).setStatusCode "200".toList
      |>.setStatusMessage "OK".toList).setBody "ok".toList,
    type := ResponseType.SMALL_RESPONSE, file := [], fileSize := 0 }

/-- A sample server: client 5 connected, nothing in flight. -/
def demoQuietServer : Server := { demoServer with responses := [], interest := [(5, Filter.EVFILT_READ)] }

/-- A request with eight header lines, the last of them `G: 1`. -/
def demoEightHeaders : Bytes :=
  "GET / HTTP/1.1\r\nHost: x\r\nA: 1\r\nB: 1\r\nC: 1\r\nD: 1\r\nE: 1\r\nF: 1\r\nG: 1\r\n\r\n".toList

/-- A request with eleven header lines, the first and the last named `Host`. -/
def demoTwoHosts : Bytes :=
  ("GET / HTTP/1.1\r\nHost: x\r\nA: 1\r\nB: 1\r\nC: 1\r\nD: 1\r\nE: 1\r\nF: 1\r\nG: 1\r\n" ++
    "H: 1\r\nI: 1\r\nHost: y\r\n\r\n").toList

/-- Equality of parse results is decidable. -/
instance instDecidableEqParse : DecidableEq (Except Fault HttpRequest) := fun a b =>
  match a, b with
  | .ok x, .ok y => if h : x = y then isTrue (by rw [h]) else isFalse (fun e => h (by cases e; rfl))
  | .error x, .error y =>
    if h : x = y then isTrue (by rw [h]) else isFalse (fun e => h (by cases e; rfl))
  | .ok _, .error _ => isFalse (fun e => by cases e)
  | .error _, .ok _ => isFalse (fun e => by cases e)

/-- The client `c` is detached and holds the close-after-send 504 response. -/
def timedOutAnswer (gen : Server.ErrorPage) (s : Server) (c : Int) : Prop :=
  mapFind s.responses c = some (ResponseState.small
    (gen "504".toList "Gateway Timeout".toList "504 Gateway Timeout".toList
      Server.cgiTimeoutDetail).buildResponse true) ∧
  mapFind s.clients c = none

/-- The handling of one timed-out entry in the loop of `checkForCgiTimeouts`. -/
def Server.cgiTimeoutStep (gen : Server.ErrorPage) (s : Server) (fd : Int) (cgi : CgiState) :
    Server :=
  let s := s.unregisterEvent fd .EVFILT_READ
  let s := s.close fd
  let s := s.kill cgi.pid
  let s := Server.handleInvalidRequest gen s cgi.clientSocket 504 Server.cgiTimeoutDetail
  { s with cgiStates := mapErase s.cgiStates fd }

/-! ## Header maps -/

/-- The keys of a header map are in strictly ascending order. -/
def headersSorted (m : List (Bytes × Bytes)) : Prop :=
  m.Pairwise (fun a b => strLess a.1 b.1 = true)

/-- The value of the last `setHeader(k, _)` call in a sequence of calls, if
there is one. -/
def lastSet : List (Bytes × Bytes) → Bytes → Option Bytes
  | [], _ => none
  | call :: calls, k =>
    match lastSet calls k with
    | some v => some v
    | none => if call.1 = k then some call.2 else none

/-- The response after a sequence of `setHeader` calls. -/
def setHeaders (r : HttpResponse) (calls : List (Bytes × Bytes)) : HttpResponse :=
  calls.foldl (fun r call => r.setHeader call.1 call.2) r

/-- The version token `HTTP/M.m` for two decimal digits. -/
def versionToken (major minor : Nat) : Bytes :=
  "HTTP/".toList ++ [Nat.digitChar major, '.', Nat.digitChar minor]

/-- The request object the constructor starts from, with the given status. -/
def blankRequest (status : Int) : HttpRequest :=
  { status := status, method := [], uri := [], version := [], host := [], headers := [],
    recursionDepth := 0 }

/-- A request whose only host header is written in lower case. -/
def demoLowerHost : Bytes := "GET / HTTP/1.1\r\nhost: x\r\n\r\n".toList

/-- A sample server: client 5 has disconnected while its CGI child on pipe 7 is
still running. -/
def demoOrphanServer : Server := demoCgiServer.handleClientDisconnection 5

/-! ## Lemmas on the map operations -/

theorem mapFind_mapErase_self {κ α : Type} [DecidableEq κ] (m : List (κ × α)) (k : κ) :
    mapFind (mapErase m k) k = none := by
  induction m with
  | nil => rfl
  | cons p rest ih =>
    obtain ⟨k', v⟩ := p
    by_cases h : k' = k
    · simpa [mapErase, h] using ih
    · have h' : ¬ k = k' := fun e => h e.symm
      simpa [mapErase, h, mapFind, h'] using ih

theorem mapFind_mapErase_ne {κ α : Type} [DecidableEq κ] (m : List (κ × α)) (k j : κ)
    (hne : j ≠ k) : mapFind (mapErase m k) j = mapFind m j := by
  induction m with
  | nil => rfl
  | cons p rest ih =>
    obtain ⟨k', v⟩ := p
    by_cases h : k' = k
    · subst h
      have : mapErase ((k', v) :: rest) k' = mapErase rest k' := by simp [mapErase]
      rw [this, ih]
      simp [mapFind, hne]
    · have : mapErase ((k', v) :: rest) k = (k', v) :: mapErase rest k := by
        simp [mapErase, h]
      rw [this]
      simp only [mapFind]
      rw [ih]

theorem mapFind_mapAssign_self {κ α : Type} [DecidableEq κ] (lt : κ → κ → Bool)
    (m : List (κ × α)) (k : κ) (v : α) : mapFind (mapAssign lt m k v) k = some v := by
  induction m with
  | nil => simp [mapAssign, mapFind]
  | cons p rest ih =>
    obtain ⟨k', v'⟩ := p
    simp only [mapAssign]
    split
    · simp [mapFind]
    · split
      · simp [mapFind]
      · rename_i h _
        simp [mapFind, h, ih]

theorem mapFind_mapAssign_ne {κ α : Type} [DecidableEq κ] (lt : κ → κ → Bool)
    (m : List (κ × α)) (k j : κ) (v : α) (hne : j ≠ k) :
    mapFind (mapAssign lt m k v) j = mapFind m j := by
  induction m with
  | nil => simp [mapAssign, mapFind, hne]
  | cons p rest ih =>
    obtain ⟨k', v'⟩ := p
    simp only [mapAssign]
    split
    · rename_i h
      subst h
      simp [mapFind, hne]
    · split
      · simp [mapFind, hne]
      · simp only [mapFind]
        rw [ih]

/-! ## C1: `handleInvalidRequest` -/

theorem removeClient_clients (s : Server) (c : Int) :
    mapFind (s.removeClient c).clients c = none := by
  unfold Server.removeClient
  cases h : mapFind s.clients c with
  | none => simpa using h
  | some v => simpa [Server.unregisterEvent] using mapFind_mapErase_self s.clients c

theorem removeClient_responses (s : Server) (c : Int) :
    (s.removeClient c).responses = s.responses := by
  unfold Server.removeClient
  cases h : mapFind s.clients c <;> simp [Server.unregisterEvent]

/-- C1: for every client handle, status code and detail, after
`handleInvalidRequest` the handle is not a key of `clients`, `responses` holds
under it a Small response whose close-after-send flag is true and whose bytes
are the built error page, and write interest is registered for it. The client
entry is removed first: in the intermediate state `removeClient s c` the handle
is already absent from `clients` while `responses` is still the old map, and
the final state is that intermediate state with the response installed and
write interest registered. -/
theorem handleInvalidRequest_detaches_then_installs (gen : Server.ErrorPage) (s : Server)
    (c code : Int) (detail : Bytes) :
    mapFind (Server.handleInvalidRequest gen s c code detail).clients c = none ∧
    (∃ rs, mapFind (Server.handleInvalidRequest gen s c code detail).responses c = some rs ∧
      rs.type = ResponseType.SMALL_RESPONSE ∧ rs.closeConnection = true ∧ rs.bytesSent = 0 ∧
      rs.smallResponse = (gen (to_string code) (Server.getStatusMessage code)
        (to_string code ++ " ".toList ++ Server.getStatusMessage code) detail).buildResponse) ∧
    (c, Filter.EVFILT_WRITE) ∈ (Server.handleInvalidRequest gen s c code detail).interest ∧
    mapFind (s.removeClient c).clients c = none ∧
    (s.removeClient c).responses = s.responses ∧
    (∃ rs, Server.handleInvalidRequest gen s c code detail =
      Server.registerEvent { s.removeClient c with
        responses := mapAssign intLess (s.removeClient c).responses c rs } c Filter.EVFILT_WRITE) := by
  refine ⟨?_, ?_, ?_, removeClient_clients s c, removeClient_responses s c, ⟨_, rfl⟩⟩
  · simpa [Server.handleInvalidRequest, Server.registerEvent] using removeClient_clients s c
  · refine ⟨ResponseState.small (gen (to_string code) (Server.getStatusMessage code)
        (to_string code ++ " ".toList ++ Server.getStatusMessage code) detail).buildResponse true,
      ?_, rfl, rfl, rfl, rfl⟩
    simp only [Server.handleInvalidRequest, Server.registerEvent]
    exact mapFind_mapAssign_self _ _ _ _
  · simp only [Server.handleInvalidRequest, Server.registerEvent]
    split
    · assumption
    · simp

/-! ## C2: the small send -/

theorem subSizeT_of_le (a b : Nat) (hb : b ≤ a) (ha : a < 2 ^ 64) :
    Server.subSizeT a b = a - b := by
  unfold Server.subSizeT
  have hb' : b % 2 ^ 64 = b := Nat.mod_eq_of_lt (lt_of_le_of_lt hb ha)
  rw [hb']
  have : a + 2 ^ 64 - b = (a - b) + 2 ^ 64 := by omega
  rw [this, Nat.add_mod_right]
  exact Nat.mod_eq_of_lt (by omega)

theorem offeredRuns_append (fd : Int) (t u : List SysCall) :
    offeredRuns fd (t ++ u) = offeredRuns fd t ++ offeredRuns fd u := by
  induction t with
  | nil => rfl
  | cons e t ih =>
    cases e <;> simp [offeredRuns, ih]
    split <;> simp

theorem acceptedBytes_append (fd : Int) (t u : List SysCall) :
    acceptedBytes fd (t ++ u) = acceptedBytes fd t ++ acceptedBytes fd u := by
  induction t with
  | nil => rfl
  | cons e t ih =>
    cases e <;> simp [acceptedBytes, ih]
    split <;> simp

theorem mapCount_of_find {κ α : Type} [DecidableEq κ] (m : List (κ × α)) (k : κ) (v : α)
    (h : mapFind m k = some v) : mapCount m k = 1 := by
  simp [mapCount, h]

theorem readBytes_exact (ptr : Bytes) : Server.readBytes ptr ptr.length = ptr := by
  simp [Server.readBytes]

theorem readBytes_length (ptr : Bytes) (len : Nat) : (Server.readBytes ptr len).length = len := by
  simp only [Server.readBytes, List.length_append, List.length_take, List.length_replicate]
  omega

theorem smallOffer (response : Bytes) (b : Nat) (hb : b ≤ response.length)
    (hL : response.length < 2 ^ 64) :
    Server.readBytes (response.drop b) (Server.subSizeT response.length b) = response.drop b := by
  rw [subSizeT_of_le _ _ hb hL]
  have := readBytes_exact (response.drop b)
  rwa [List.length_drop] at this

/-- One small send that leaves the response unfinished. -/
theorem handleClientResponse_small_more (s : Server) (c : Int) (rs : ResponseState) (n e : Int)
    (hrs : mapFind s.responses c = some rs) (hty : rs.type = ResponseType.SMALL_RESPONSE)
    (hb : rs.bytesSent ≤ rs.smallResponse.length) (hL : rs.smallResponse.length < 2 ^ 64)
    (hn : 0 ≤ n) (hlt : rs.bytesSent + n.toNat < rs.smallResponse.length) :
    s.handleClientResponse c n e =
      { s with
        trace := s.trace ++ [SysCall.send c (rs.smallResponse.drop rs.bytesSent) n]
        responses := mapAssign intLess s.responses c
          { rs with bytesSent := rs.bytesSent + n.toNat } } := by
  have hc := mapCount_of_find _ _ _ hrs
  have hn' : ¬ n < 0 := not_lt.mpr hn
  have hfin : ¬ rs.smallResponse.length ≤ rs.bytesSent + n.toNat := not_le.mpr hlt
  simp [Server.handleClientResponse, hc, hrs, hty, Server.sendSmallResponse, Server.send,
    smallOffer _ _ hb hL, hn', ResponseState.isFinished, hfin]

/-- One small send that completes the response. -/
theorem handleClientResponse_small_done (s : Server) (c : Int) (rs : ResponseState) (n e : Int)
    (hrs : mapFind s.responses c = some rs) (hty : rs.type = ResponseType.SMALL_RESPONSE)
    (hb : rs.bytesSent ≤ rs.smallResponse.length) (hL : rs.smallResponse.length < 2 ^ 64)
    (hn : 0 ≤ n) (hge : rs.smallResponse.length ≤ rs.bytesSent + n.toNat) :
    s.handleClientResponse c n e =
      { s with
        trace := s.trace ++ ([SysCall.send c (rs.smallResponse.drop rs.bytesSent) n,
          SysCall.unregisterEvent c Filter.EVFILT_WRITE] ++
          if rs.closeConnection then [SysCall.close c] else [])
        interest := s.interest.filter (fun p => decide (p ≠ (c, Filter.EVFILT_WRITE)))
        responses := mapErase (mapAssign intLess s.responses c
          { rs with bytesSent := rs.bytesSent + n.toNat }) c } := by
  have hc := mapCount_of_find _ _ _ hrs
  have hn' : ¬ n < 0 := not_lt.mpr hn
  cases hcl : rs.closeConnection <;>
  simp [Server.handleClientResponse, hc, hrs, hty, Server.sendSmallResponse, Server.send,
    smallOffer _ _ hb hL, hn', ResponseState.isFinished, hge, Server.unregisterEvent,
    Server.close, hcl]

theorem validSends_cons {L b : Nat} {n : Int} {rest : List Int}
    (h : validSends L b (n :: rest) = true) :
    0 ≤ n ∧ n.toNat ≤ L - b ∧
      (rest = [] ∨ (b + n.toNat < L ∧ validSends L (b + n.toNat) rest = true)) := by
  simp only [validSends, Bool.and_eq_true, Bool.or_eq_true, decide_eq_true_eq,
    List.isEmpty_iff] at h
  exact ⟨h.1.1, h.1.2, h.2⟩

/-- The run of small sends, for a cursor that starts anywhere in the response. -/
theorem sendRun_small_aux (c : Int) : ∀ (ns : List Int) (s : Server) (rs : ResponseState),
    mapFind s.responses c = some rs → rs.type = ResponseType.SMALL_RESPONSE →
    rs.bytesSent ≤ rs.smallResponse.length → rs.smallResponse.length < 2 ^ 64 →
    validSends rs.smallResponse.length rs.bytesSent ns = true →
    ∃ new, (s.sendRun c ns).trace = s.trace ++ new ∧
      offeredRuns c new = suffixesAt rs.smallResponse rs.bytesSent ns ∧
      acceptedBytes c new = (rs.smallResponse.drop rs.bytesSent).take (ns.map Int.toNat).sum ∧
      rs.bytesSent + (ns.map Int.toNat).sum ≤ rs.smallResponse.length ∧
      ((ns ≠ [] ∧ rs.bytesSent + (ns.map Int.toNat).sum = rs.smallResponse.length) →
        mapFind (s.sendRun c ns).responses c = none ∧
        (c, Filter.EVFILT_WRITE) ∉ (s.sendRun c ns).interest ∧
        SysCall.unregisterEvent c Filter.EVFILT_WRITE ∈ new ∧
        (SysCall.close c ∈ new ↔ rs.closeConnection = true)) ∧
      (¬ (ns ≠ [] ∧ rs.bytesSent + (ns.map Int.toNat).sum = rs.smallResponse.length) →
        mapFind (s.sendRun c ns).responses c =
          some { rs with bytesSent := rs.bytesSent + (ns.map Int.toNat).sum } ∧
        (s.sendRun c ns).interest = s.interest ∧
        SysCall.unregisterEvent c Filter.EVFILT_WRITE ∉ new ∧
        SysCall.close c ∉ new) := by
  intro ns
  induction ns with
  | nil =>
    intro s rs hrs _ hb _ _
    refine ⟨[], by simp [Server.sendRun], rfl, by simp [acceptedBytes], by simpa using hb, ?_, ?_⟩
    · intro h; exact absurd rfl h.1
    · intro _
      simp [Server.sendRun, hrs]
  | cons n rest ih =>
    intro s rs hrs hty hb hL hv
    obtain ⟨hn, hle, hrest⟩ := validSends_cons hv
    by_cases hlt : rs.bytesSent + n.toNat < rs.smallResponse.length
    · -- the response is unfinished after this call
      have hstep := handleClientResponse_small_more s c rs n 0 hrs hty hb hL hn hlt
      have hv' : validSends rs.smallResponse.length (rs.bytesSent + n.toNat) rest = true := by
        rcases hrest with h | h
        · subst h; rfl
        · exact h.2
      obtain ⟨new, htr, hoff, hacc, hbd, hdone, hmore⟩ :=
        ih (s.handleClientResponse c n 0) { rs with bytesSent := rs.bytesSent + n.toNat }
          (by rw [hstep]; exact mapFind_mapAssign_self _ _ _ _) hty (le_of_lt hlt) hL hv'
      have hsum : ((n :: rest).map Int.toNat).sum = n.toNat + (rest.map Int.toNat).sum := by simp
      have hint : (s.handleClientResponse c n 0).interest = s.interest := by rw [hstep]
      have htr0 : (s.handleClientResponse c n 0).trace =
          s.trace ++ [SysCall.send c (rs.smallResponse.drop rs.bytesSent) n] := by rw [hstep]
      refine ⟨SysCall.send c (rs.smallResponse.drop rs.bytesSent) n :: new, ?_, ?_, ?_, ?_, ?_, ?_⟩
      · simp only [Server.sendRun]
        rw [htr, htr0]; simp
      · simp only [offeredRuns, suffixesAt, if_true]
        rw [hoff]
      · simp only [acceptedBytes, if_true]
        rw [hacc, hsum]
        simp only [List.drop_drop]
        rw [List.take_add]
        simp [Nat.add_comm]
      · rw [hsum]; simpa [Nat.add_assoc] using hbd
      · rintro ⟨_, htot⟩
        have hne : rest ≠ [] := by
          rintro rfl
          simp at htot
          omega
        have := hdone ⟨hne, by simpa [hsum, Nat.add_assoc] using htot⟩
        simp only [Server.sendRun]
        refine ⟨this.1, this.2.1, List.mem_cons_of_mem _ this.2.2.1, ?_⟩
        simpa using this.2.2.2
      · intro hnot
        have hnot' : ¬ (rest ≠ [] ∧ rs.bytesSent + n.toNat + (rest.map Int.toNat).sum =
            rs.smallResponse.length) := by
          rintro ⟨_, htot⟩
          exact hnot ⟨by simp, by rw [hsum]; omega⟩
        have := hmore hnot'
        simp only [Server.sendRun]
        refine ⟨?_, ?_, ?_, ?_⟩
        · rw [this.1, hsum]; simp [Nat.add_assoc]
        · rw [this.2.1, hint]
        · simpa using this.2.2.1
        · simpa using this.2.2.2
    · -- this call completes the response
      have hge : rs.smallResponse.length ≤ rs.bytesSent + n.toNat := not_lt.mp hlt
      have hr : rest = [] := by
        rcases hrest with h | h
        · exact h
        · exact absurd h.1 hlt
      subst hr
      have hstep := handleClientResponse_small_done s c rs n 0 hrs hty hb hL hn hge
      have heq : rs.bytesSent + n.toNat = rs.smallResponse.length := by omega
      refine ⟨[SysCall.send c (rs.smallResponse.drop rs.bytesSent) n,
          SysCall.unregisterEvent c Filter.EVFILT_WRITE] ++
          (if rs.closeConnection then [SysCall.close c] else []), ?_, ?_, ?_, ?_, ?_, ?_⟩
      · simp only [Server.sendRun]; rw [hstep]
      · cases rs.closeConnection <;> simp [offeredRuns, suffixesAt]
      · cases rs.closeConnection <;> simp [acceptedBytes]
      · simpa using le_of_eq heq
      · intro _
        simp only [Server.sendRun]
        rw [hstep]
        refine ⟨mapFind_mapErase_self _ _, ?_, by simp, ?_⟩
        · simp [List.mem_filter]
        · cases rs.closeConnection <;> simp
      · intro hnot
        exact absurd ⟨by simp, by simpa using heq⟩ hnot

/-- C2: for a Small response whose cursor is at zero and every sequence `ns` of
successful send results (each `n` with `0 ≤ n ≤` remaining bytes, a further
call only while the response is unfinished), each call of the run hands the
socket exactly `response[bytesSent..]` at the successive cursors (the run of
`remainingLength` bytes at the pointer, no byte more or less), the cursor stays
`≤` the total length, the accepted bytes are the first `sum ns` bytes of the
response, and the ResponseState is erased (with write interest unregistered)
exactly when the accepted bytes are the whole response; otherwise it stays
with `bytesSent = sum ns`. The handle is closed in the run if and only if the
state was erased and the close-after-send flag is set. -/
theorem sendSmallResponse_run (s : Server) (c : Int) (rs : ResponseState) (ns : List Int)
    (hrs : mapFind s.responses c = some rs) (hty : rs.type = ResponseType.SMALL_RESPONSE)
    (h0 : rs.bytesSent = 0) (hL : rs.smallResponse.length < 2 ^ 64)
    (hv : validSends rs.smallResponse.length 0 ns = true) :
    ∃ new, (s.sendRun c ns).trace = s.trace ++ new ∧
      offeredRuns c new = suffixesAt rs.smallResponse 0 ns ∧
      (ns.map Int.toNat).sum ≤ rs.smallResponse.length ∧
      acceptedBytes c new = rs.smallResponse.take (ns.map Int.toNat).sum ∧
      (mapFind (s.sendRun c ns).responses c = none ↔
        (ns ≠ [] ∧ acceptedBytes c new = rs.smallResponse)) ∧
      (mapFind (s.sendRun c ns).responses c = none →
        (c, Filter.EVFILT_WRITE) ∉ (s.sendRun c ns).interest ∧
        SysCall.unregisterEvent c Filter.EVFILT_WRITE ∈ new) ∧
      (mapFind (s.sendRun c ns).responses c ≠ none →
        mapFind (s.sendRun c ns).responses c =
          some { rs with bytesSent := (ns.map Int.toNat).sum } ∧
        (s.sendRun c ns).interest = s.interest ∧
        SysCall.unregisterEvent c Filter.EVFILT_WRITE ∉ new) ∧
      (SysCall.close c ∈ new ↔
        (mapFind (s.sendRun c ns).responses c = none ∧ rs.closeConnection = true)) := by
  obtain ⟨new, htr, hoff, hacc, hbd, hdone, hmore⟩ :=
    sendRun_small_aux c ns s rs hrs hty (by omega) hL (by rw [h0]; exact hv)
  rw [h0] at hoff hacc hbd hdone hmore
  simp only [Nat.zero_add, List.drop_zero] at hacc hbd hdone hmore
  have hwhole : rs.smallResponse.take (ns.map Int.toNat).sum = rs.smallResponse ↔
      (ns.map Int.toNat).sum = rs.smallResponse.length := by
    constructor
    · intro h
      have := congrArg List.length h
      simp at this
      omega
    · intro h; rw [h]; exact List.take_length _
  by_cases hfin : ns ≠ [] ∧ (ns.map Int.toNat).sum = rs.smallResponse.length
  · have hd := hdone hfin
    refine ⟨new, htr, hoff, hbd, hacc, ?_, ?_, ?_, ?_⟩
    · rw [hacc, hwhole]; exact ⟨fun _ => hfin, fun _ => hd.1⟩
    · intro _; exact ⟨hd.2.1, hd.2.2.1⟩
    · intro h; exact absurd hd.1 h
    · rw [hd.2.2.2]; simp [hd.1]
  · have hm := hmore hfin
    have hsome : mapFind (s.sendRun c ns).responses c ≠ none := by rw [hm.1]; simp
    refine ⟨new, htr, hoff, hbd, hacc, ?_, ?_, ?_, ?_⟩
    · rw [hacc, hwhole]; exact ⟨fun h => absurd h hsome, fun h => absurd h hfin⟩
    · intro h; exact absurd h hsome
    · intro _; exact ⟨hm.1, hm.2.1, hm.2.2.1⟩
    · constructor
      · intro h; exact absurd h hm.2.2.2
      · intro h; exact absurd h.1 hsome

/-- C2 at a concrete run: `hello` sent as 2 + 0 + 3 bytes. -/
theorem sendSmallResponse_run_witness :
    ∃ new, (demoServer.sendRun 5 [2, 0, 3]).trace = demoServer.trace ++ new ∧
      offeredRuns 5 new = suffixesAt demoSmall.smallResponse 0 [2, 0, 3] ∧
      (([2, 0, 3] : List Int).map Int.toNat).sum ≤ demoSmall.smallResponse.length ∧
      acceptedBytes 5 new = demoSmall.smallResponse.take (([2, 0, 3] : List Int).map Int.toNat).sum ∧
      (mapFind (demoServer.sendRun 5 [2, 0, 3]).responses 5 = none ↔
        (([2, 0, 3] : List Int) ≠ [] ∧ acceptedBytes 5 new = demoSmall.smallResponse)) ∧
      (mapFind (demoServer.sendRun 5 [2, 0, 3]).responses 5 = none →
        (5, Filter.EVFILT_WRITE) ∉ (demoServer.sendRun 5 [2, 0, 3]).interest ∧
        SysCall.unregisterEvent 5 Filter.EVFILT_WRITE ∈ new) ∧
      (mapFind (demoServer.sendRun 5 [2, 0, 3]).responses 5 ≠ none →
        mapFind (demoServer.sendRun 5 [2, 0, 3]).responses 5 =
          some { demoSmall with bytesSent := (([2, 0, 3] : List Int).map Int.toNat).sum } ∧
        (demoServer.sendRun 5 [2, 0, 3]).interest = demoServer.interest ∧
        SysCall.unregisterEvent 5 Filter.EVFILT_WRITE ∉ new) ∧
      (SysCall.close 5 ∈ new ↔
        (mapFind (demoServer.sendRun 5 [2, 0, 3]).responses 5 = none ∧
          demoSmall.closeConnection = true)) :=
  sendSmallResponse_run demoServer 5 demoSmall [2, 0, 3] (by decide) (by decide) (by decide)
    (by decide) (by decide)

/-! ## C3: the end chunk of a large response -/

/-- C3 (the code at the failing input): when the cursor is at zero, the chunk
read by this call is the last of the file, and the socket accepts the whole
chunk, `sendLargeResponseChunk` sends the end chunk once and drops the
ResponseState whatever that send returns: for every result `t < 5`
(a truncated write, or -1) the calls issued are the chunk send, the end-chunk
send with result `t`, and the unregistration of write interest, and the
state is erased, so the bytes of the end chunk after the first `t` are never
sent. -/
theorem sendLargeResponseChunk_end_chunk_truncated (s : Server) (c : Int) (rs : ResponseState)
    (r t : Int)
    (hpos : rs.currentChunkPosition = 0) (hhdr : rs.isHeaderSent = true)
    (hty : rs.type = ResponseType.LARGE_RESPONSE)
    (hlast : rs.fileSize ≤ rs.bytesSent + ((rs.file.drop rs.bytesSent).take CHUNK_SIZE).length)
    (hlen : (ResponseState.frameChunk ((rs.file.drop rs.bytesSent).take CHUNK_SIZE)).length < 2 ^ 64)
    (hr : r = (ResponseState.frameChunk ((rs.file.drop rs.bytesSent).take CHUNK_SIZE)).length)
    (ht : t < 5) :
    (Server.sendLargeResponseChunk s c rs r t).trace = s.trace ++
      [SysCall.send c (ResponseState.frameChunk ((rs.file.drop rs.bytesSent).take CHUNK_SIZE)) r,
       SysCall.send c Server.endChunk t,
       SysCall.unregisterEvent c Filter.EVFILT_WRITE] ∧
    mapFind (Server.sendLargeResponseChunk s c rs r t).responses c = none ∧
    (Server.endChunk.take t.toNat).length < Server.endChunk.length := by
  have hr0 : ¬ r < 0 := by rw [hr]; exact not_lt.mpr (Int.ofNat_nonneg _)
  have hrn : r.toNat = (ResponseState.frameChunk
      ((rs.file.drop rs.bytesSent).take CHUNK_SIZE)).length := by rw [hr]; simp
  have hsub := subSizeT_of_le _ 0 (Nat.zero_le _) hlen
  have hfin : rs.fileSize ≤ rs.bytesSent + min CHUNK_SIZE (rs.file.length - rs.bytesSent) := by
    simpa using hlast
  refine ⟨?_, ?_, ?_⟩
  · by_cases ht0 : t < 0 <;>
    simp [Server.sendLargeResponseChunk, ResponseState.getNextChunk, hpos, Server.send, hr0,
      hsub, hrn, ResponseState.isFinished, hty, hhdr, hfin, Server.unregisterEvent, ht0,
      readBytes_exact]
  · by_cases ht0 : t < 0 <;>
    simp [Server.sendLargeResponseChunk, ResponseState.getNextChunk, hpos, Server.send, hr0,
      hsub, hrn, ResponseState.isFinished, hty, hhdr, hfin, Server.unregisterEvent, ht0,
      mapFind_mapErase_self]
  · have : Server.endChunk.length = 5 := by decide
    rw [this, List.length_take, this]
    omega

/-- C3 at a concrete input: a file `abc`, the chunk `3\r\nabc\r\n` accepted whole
(8 bytes), the end chunk accepted for 2 of its 5 bytes. The socket has
received `3\r\nabc\r\n0\r` and the response state is gone. -/
theorem sendLargeResponseChunk_end_chunk_truncated_witness :
    (Server.sendLargeResponseChunk demoLargeServer 5 demoLarge 8 2).trace =
      demoLargeServer.trace ++
        [SysCall.send 5 "3\r\nabc\r\n".toList 8,
         SysCall.send 5 "0\r\n\r\n".toList 2,
         SysCall.unregisterEvent 5 Filter.EVFILT_WRITE] ∧
    mapFind (Server.sendLargeResponseChunk demoLargeServer 5 demoLarge 8 2).responses 5 = none ∧
    (Server.endChunk.take (2 : Int).toNat).length < Server.endChunk.length :=
  sendLargeResponseChunk_end_chunk_truncated demoLargeServer 5 demoLarge 8 2
    (by decide) (by decide) (by decide) (by decide) (by decide) (by decide) (by decide)

/-! ## C4: a send that returns -1 -/

/-- C4 (counterexample): the send of a Small response with 5 bytes pending
returns -1. Before the call the state is in `responses` and write interest is
registered; after it the state is gone from `responses` and write interest is
no longer registered, so nothing is retried. -/
theorem would_block_drops_response :
    mapFind demoServer.responses 5 = some demoSmall ∧
    (5, Filter.EVFILT_WRITE) ∈ demoServer.interest ∧
    mapFind (demoServer.handleClientResponse 5 (-1) 0).responses 5 = none ∧
    (5, Filter.EVFILT_WRITE) ∉ (demoServer.handleClientResponse 5 (-1) 0).interest := by
  decide

/-- C4 (amended): in each of the three send routines (Small, Large headers,
Large chunk) a send that returns a negative value, would-block included, makes
the routine erase the ResponseState of the client from `responses` and
unregister its write interest; `clients` is left as it was and the handle is
not closed by the routine. -/
theorem negative_send_drops_response (s : Server) (c : Int) (rs : ResponseState) (r e : Int)
    (hr : r < 0) :
    (mapFind (Server.sendSmallResponse s c rs r).responses c = none ∧
      (c, Filter.EVFILT_WRITE) ∉ (Server.sendSmallResponse s c rs r).interest ∧
      (Server.sendSmallResponse s c rs r).clients = s.clients ∧
      SysCall.close c ∉ (Server.sendSmallResponse s c rs r).trace.drop s.trace.length) ∧
    (mapFind (Server.sendLargeResponseHeaders s c rs r).responses c = none ∧
      (c, Filter.EVFILT_WRITE) ∉ (Server.sendLargeResponseHeaders s c rs r).interest ∧
      (Server.sendLargeResponseHeaders s c rs r).clients = s.clients ∧
      SysCall.close c ∉ (Server.sendLargeResponseHeaders s c rs r).trace.drop s.trace.length) ∧
    (mapFind (Server.sendLargeResponseChunk s c rs r e).responses c = none ∧
      (c, Filter.EVFILT_WRITE) ∉ (Server.sendLargeResponseChunk s c rs r e).interest ∧
      (Server.sendLargeResponseChunk s c rs r e).clients = s.clients ∧
      SysCall.close c ∉ (Server.sendLargeResponseChunk s c rs r e).trace.drop s.trace.length) := by
  refine ⟨⟨?_, ?_, ?_, ?_⟩, ⟨?_, ?_, ?_, ?_⟩, ⟨?_, ?_, ?_, ?_⟩⟩
  all_goals
    simp [Server.sendSmallResponse, Server.sendLargeResponseHeaders,
      Server.sendLargeResponseChunk, Server.send, Server.unregisterEvent, hr,
      mapFind_mapErase_self, List.mem_filter]

/-- C4 (amended) at a concrete input: result -1 on the sample Large response. -/
theorem negative_send_drops_response_witness :
    ((-1 : Int) < 0) ∧
    (mapFind (Server.sendSmallResponse demoLargeServer 5 demoLarge (-1)).responses 5 = none ∧
      (5, Filter.EVFILT_WRITE) ∉ (Server.sendSmallResponse demoLargeServer 5 demoLarge (-1)).interest ∧
      (Server.sendSmallResponse demoLargeServer 5 demoLarge (-1)).clients = demoLargeServer.clients ∧
      SysCall.close 5 ∉
        (Server.sendSmallResponse demoLargeServer 5 demoLarge (-1)).trace.drop demoLargeServer.trace.length) ∧
    (mapFind (Server.sendLargeResponseHeaders demoLargeServer 5 demoLarge (-1)).responses 5 = none ∧
      (5, Filter.EVFILT_WRITE) ∉
        (Server.sendLargeResponseHeaders demoLargeServer 5 demoLarge (-1)).interest ∧
      (Server.sendLargeResponseHeaders demoLargeServer 5 demoLarge (-1)).clients = demoLargeServer.clients ∧
      SysCall.close 5 ∉
        (Server.sendLargeResponseHeaders demoLargeServer 5 demoLarge (-1)).trace.drop
          demoLargeServer.trace.length) ∧
    (mapFind (Server.sendLargeResponseChunk demoLargeServer 5 demoLarge (-1) 0).responses 5 = none ∧
      (5, Filter.EVFILT_WRITE) ∉
        (Server.sendLargeResponseChunk demoLargeServer 5 demoLarge (-1) 0).interest ∧
      (Server.sendLargeResponseChunk demoLargeServer 5 demoLarge (-1) 0).clients = demoLargeServer.clients ∧
      SysCall.close 5 ∉
        (Server.sendLargeResponseChunk demoLargeServer 5 demoLarge (-1) 0).trace.drop
          demoLargeServer.trace.length) :=
  ⟨by decide, negative_send_drops_response demoLargeServer 5 demoLarge (-1) 0 (by decide)⟩

/-! ## C5: the response built at the end of the CGI output -/

theorem to_string_natCast (n : Nat) : to_string (n : Int) = Nat.toDigits 10 n := by
  simp [to_string]

theorem cgiResponse_bytes (o : Bytes) :
    (Server.cgiResponse o).buildResponse =
      "HTTP/1.1 200 OK\r\n".toList ++
      ("Connection: keep-alive\r\n".toList ++
       ("Content-Length: ".toList ++ Nat.toDigits 10 o.length ++ "\r\n".toList) ++
       "Content-Type: text/plain\r\n".toList ++
       "Server: Nginx 2.0\r\n".toList) ++
      "\r\n".toList ++ o := by
  have h200 : to_string 200 = "200".toList := by decide
  simp [Server.cgiResponse, HttpResponse.buildResponse, HttpResponse.getStatusLine,
    HttpResponse.getHeadersAsString, HttpResponse.getBody, HttpResponse.setHeader,
    HttpResponse.setBody, HttpResponse.setStatusMessage, HttpResponse.setStatusCode,
    HttpResponse.setVersion, HttpResponse.new, mapAssign, strLess, HttpResponse.headersToString,
    to_string_natCast, h200]

/-- C5: for a CgiState on pipe `p` with accumulated output `o` whose owning
client `c` is in `clients`, a 0-byte read makes `handleCgiOutput` return a
state where `responses[c]` is a fresh Small response (cursor 0, no
close-after-send) whose bytes are the status line `HTTP/1.1 200 OK`, the four
headers Connection: keep-alive, Content-Length: decimal length of `o`,
Content-Type: text/plain and Server: Nginx 2.0 (in key order), a blank line and
`o`; write interest is registered for `c`, the CgiState is erased from the cgi
map, and `c` stays in `clients`. -/
theorem handleCgiOutput_eof_response (gen : Server.ErrorPage) (s : Server) (p : Int)
    (cgi : CgiState) (client : ClientState) (buffer : Bytes)
    (hcgi : mapFind s.cgiStates p = some cgi)
    (hcl : mapFind s.clients cgi.clientSocket = some client) :
    ∃ s', Server.handleCgiOutput gen s p 0 buffer = some s' ∧
      mapFind s'.responses cgi.clientSocket = some (ResponseState.small
        ("HTTP/1.1 200 OK\r\n".toList ++
          ("Connection: keep-alive\r\n".toList ++
           ("Content-Length: ".toList ++ Nat.toDigits 10 cgi.cgiResponseMessage.length ++
              "\r\n".toList) ++
           "Content-Type: text/plain\r\n".toList ++
           "Server: Nginx 2.0\r\n".toList) ++
          "\r\n".toList ++ cgi.cgiResponseMessage) false) ∧
      (Server.cgiResponse cgi.cgiResponseMessage).headers.map Prod.fst =
        ["Connection".toList, "Content-Length".toList, "Content-Type".toList, "Server".toList] ∧
      (cgi.clientSocket, Filter.EVFILT_WRITE) ∈ s'.interest ∧
      mapFind s'.cgiStates p = none ∧
      mapFind s'.clients cgi.clientSocket = some client.resetClientState := by
  refine ⟨_, by simp [Server.handleCgiOutput, hcgi, hcl]; rfl, ?_, ?_, ?_, ?_, ?_⟩
  · simp only [Server.close, Server.unregisterEvent, Server.registerEvent]
    rw [mapFind_mapAssign_self, cgiResponse_bytes]
  · simp [Server.cgiResponse, HttpResponse.setHeader, HttpResponse.setBody,
      HttpResponse.setStatusMessage, HttpResponse.setStatusCode, HttpResponse.setVersion,
      HttpResponse.new, mapAssign, strLess]
  · simp only [Server.close, Server.unregisterEvent, Server.registerEvent, List.mem_filter]
    refine ⟨?_, by simp⟩
    split
    · assumption
    · simp
  · simp only [Server.close, Server.unregisterEvent, Server.registerEvent]
    exact mapFind_mapErase_self _ _
  · simp only [Server.close, Server.unregisterEvent, Server.registerEvent]
    exact mapFind_mapAssign_self _ _ _ _

/-- C5 at the concrete input of the spec: output `hi` gives Content-Length: 2
and body `hi`. -/
theorem handleCgiOutput_eof_response_witness :
    ∃ s', Server.handleCgiOutput demoGen demoCgiServer 7 0 [] = some s' ∧
      mapFind s'.responses 5 = some (ResponseState.small
        ("HTTP/1.1 200 OK\r\n".toList ++
          ("Connection: keep-alive\r\n".toList ++
           ("Content-Length: ".toList ++ Nat.toDigits 10 2 ++ "\r\n".toList) ++
           "Content-Type: text/plain\r\n".toList ++
           "Server: Nginx 2.0\r\n".toList) ++
          "\r\n".toList ++ "hi".toList) false) ∧
      (Server.cgiResponse "hi".toList).headers.map Prod.fst =
        ["Connection".toList, "Content-Length".toList, "Content-Type".toList, "Server".toList] ∧
      (5, Filter.EVFILT_WRITE) ∈ s'.interest ∧
      mapFind s'.cgiStates 7 = none ∧
      mapFind s'.clients 5 = some demoClient.resetClientState :=
  handleCgiOutput_eof_response demoGen demoCgiServer 7 demoCgi demoClient [] (by decide)
    (by decide)

/-! ## C6: the bound on the CGI output -/

theorem handleInvalidRequest_cgiStates (gen : Server.ErrorPage) (s : Server) (c code : Int)
    (detail : Bytes) : (Server.handleInvalidRequest gen s c code detail).cgiStates = s.cgiStates := by
  simp only [Server.handleInvalidRequest, Server.registerEvent, Server.removeClient]
  cases mapFind s.clients c <;> simp [Server.unregisterEvent]

theorem handleInvalidRequest_find_client (gen : Server.ErrorPage) (s : Server) (c code : Int)
    (detail : Bytes) : mapFind (Server.handleInvalidRequest gen s c code detail).clients c = none := by
  simpa [Server.handleInvalidRequest, Server.registerEvent] using removeClient_clients s c

theorem handleInvalidRequest_find_response (gen : Server.ErrorPage) (s : Server) (c code : Int)
    (detail : Bytes) :
    mapFind (Server.handleInvalidRequest gen s c code detail).responses c =
      some (ResponseState.small (gen (to_string code) (Server.getStatusMessage code)
        (to_string code ++ " ".toList ++ Server.getStatusMessage code) detail).buildResponse
        true) := by
  simp only [Server.handleInvalidRequest, Server.registerEvent]
  exact mapFind_mapAssign_self _ _ _ _

theorem to_string_500 : to_string 500 = "500".toList := by decide

theorem getStatusMessage_500 :
    Server.getStatusMessage 500 = "Internal Server Error".toList := by decide

theorem cgiOutputBounded_erase (s : Server) (m : List (Int × CgiState)) (p : Int)
    (h : ∀ (fd : Int) (cgi : CgiState), fd ≠ p → mapFind m fd = some cgi →
      cgi.cgiResponseMessage.length ≤ Server.CGI_MAX_OUTPUT_SIZE)
    (hs : s.cgiStates = mapErase m p) : cgiOutputBounded s := by
  intro fd cgi hfd
  rw [hs] at hfd
  by_cases hne : fd = p
  · subst hne
    rw [mapFind_mapErase_self] at hfd
    exact absurd hfd (by simp)
  · rw [mapFind_mapErase_ne _ _ _ hne] at hfd
    exact h fd cgi hne hfd

/-- One drain step on a pipe of the map when, in the case of a 0-byte read, the
owning client is in `clients`: the step returns a state, the bound holds in
it, and the three outcomes (kept, removed with a 500, answered with a 200) are
as stated. -/
theorem handleCgiOutput_step (gen : Server.ErrorPage) (s : Server) (p : Int)
    (cgi : CgiState) (n : Int) (buffer : Bytes)
    (hinv : cgiOutputBounded s)
    (hcgi : mapFind s.cgiStates p = some cgi)
    (hcl : n = 0 → (mapFind s.clients cgi.clientSocket).isSome = true) :
    ∃ s', Server.handleCgiOutput gen s p n buffer = some s' ∧
      cgiOutputBounded s' ∧
      (0 < n → (cgi.cgiResponseMessage ++ buffer.take n.toNat).length ≤ Server.CGI_MAX_OUTPUT_SIZE →
        mapFind s'.cgiStates p = some { cgi with
          cgiResponseMessage := cgi.cgiResponseMessage ++ buffer.take n.toNat } ∧
        s'.responses = s.responses ∧ s'.clients = s.clients) ∧
      (0 < n → Server.CGI_MAX_OUTPUT_SIZE < (cgi.cgiResponseMessage ++ buffer.take n.toNat).length →
        mapFind s'.cgiStates p = none ∧
        mapFind s'.clients cgi.clientSocket = none ∧
        mapFind s'.responses cgi.clientSocket = some (ResponseState.small
          (gen "500".toList "Internal Server Error".toList "500 Internal Server Error".toList
            Server.cgiOverflowDetail).buildResponse true) ∧
        SysCall.kill cgi.pid ∈ s'.trace) ∧
      (n = 0 → mapFind s'.cgiStates p = none ∧
        mapFind s'.responses cgi.clientSocket = some (ResponseState.small
          (Server.cgiResponse cgi.cgiResponseMessage).buildResponse false)) := by
  have hothers : ∀ (m : List (Int × CgiState)) (v : CgiState) (fd : Int) (st : CgiState),
      fd ≠ p → mapFind (mapAssign intLess s.cgiStates p v) fd = some st →
      st.cgiResponseMessage.length ≤ Server.CGI_MAX_OUTPUT_SIZE := by
    intro _ v fd st hne hfd
    rw [mapFind_mapAssign_ne _ _ _ _ _ hne] at hfd
    exact hinv fd st hfd
  rcases lt_trichotomy n 0 with hneg | hzero | hpos
  · -- read error: nothing changes
    refine ⟨s, by simp [Server.handleCgiOutput, hneg], hinv, ?_, ?_, ?_⟩
    · intro h; omega
    · intro h; omega
    · intro h; omega
  · -- end of the output
    subst hzero
    obtain ⟨client, hclient⟩ := Option.isSome_iff_exists.mp (hcl rfl)
    refine ⟨_, by simp [Server.handleCgiOutput, hcgi, hclient]; rfl, ?_, ?_, ?_, ?_⟩
    · apply cgiOutputBounded_erase _ s.cgiStates p
      · intro fd st _ hfd; exact hinv fd st hfd
      · simp [Server.close, Server.unregisterEvent, Server.registerEvent]
    · intro h; omega
    · intro h; omega
    · intro _
      simp only [Server.close, Server.unregisterEvent, Server.registerEvent]
      exact ⟨mapFind_mapErase_self _ _, mapFind_mapAssign_self _ _ _ _⟩
  · -- data
    have hn0 : ¬ n < 0 := by omega
    have hn1 : ¬ n = 0 := by omega
    by_cases hover : Server.CGI_MAX_OUTPUT_SIZE <
        (cgi.cgiResponseMessage ++ buffer.take n.toNat).length
    · have hover' : Server.CGI_MAX_OUTPUT_SIZE <
          cgi.cgiResponseMessage.length + min n.toNat buffer.length := by simpa using hover
      refine ⟨_, by simp [Server.handleCgiOutput, hcgi, hn0, hn1, hover']; rfl, ?_, ?_, ?_, ?_⟩
      · apply cgiOutputBounded_erase _
          (mapAssign intLess s.cgiStates p { cgi with
            cgiResponseMessage := cgi.cgiResponseMessage ++ buffer.take n.toNat }) p
        · intro fd st hne hfd; exact hothers s.cgiStates _ fd st hne hfd
        · simp [Server.close, Server.kill, handleInvalidRequest_cgiStates,
            Server.unregisterEvent]
      · intro _ hle; omega
      · intro _ _
        refine ⟨?_, ?_, ?_, ?_⟩
        · simp only [Server.close, Server.kill]
          exact mapFind_mapErase_self _ _
        · simpa [Server.close, Server.kill] using handleInvalidRequest_find_client gen _ _ _ _
        · simpa [Server.close, Server.kill] using
            handleInvalidRequest_find_response gen _ cgi.clientSocket 500 Server.cgiOverflowDetail
        · simp [Server.close, Server.kill]
      · intro h; omega
    · have hle : (cgi.cgiResponseMessage ++ buffer.take n.toNat).length ≤
          Server.CGI_MAX_OUTPUT_SIZE := not_lt.mp hover
      have hle' : ¬ Server.CGI_MAX_OUTPUT_SIZE <
          cgi.cgiResponseMessage.length + min n.toNat buffer.length := by simpa using hover
      refine ⟨_, by simp [Server.handleCgiOutput, hcgi, hn0, hn1, hle']; rfl, ?_, ?_, ?_, ?_⟩
      · intro fd st hfd
        by_cases hne : fd = p
        · subst hne
          simp only [] at hfd
          rw [mapFind_mapAssign_self] at hfd
          cases hfd
          exact hle
        · exact hothers s.cgiStates _ fd st hne hfd
      · intro _ _
        exact ⟨mapFind_mapAssign_self _ _ _ _, rfl, rfl⟩
      · intro _ h; omega
      · intro h; omega

/-- C6 (the code on every input, and at the failing input): let every CgiState
of the cgi map hold at most `CGI_MAX_OUTPUT_SIZE` bytes and let `p` be a pipe
of the map. If the read returns 0 bytes and the owning client is not in
`clients`, `handleCgiOutput` dereferences the null pointer
`_clients[clientSocket]`: no state and no 200 response result. In every other
case, for every read result, it returns a state in which every remaining
CgiState still holds at most `CGI_MAX_OUTPUT_SIZE` bytes. After a read of
`n > 0` bytes: if the output now has at most `CGI_MAX_OUTPUT_SIZE` bytes
(exactly that many included) the CgiState is kept with the bytes appended; if
it has more, the CgiState is removed, the child is killed, the owning client
is detached and gets a Small close-after-send response built from the 500
error page. A 0-byte read with the owning client present yields the 200
response with the accumulated output. -/
theorem handleCgiOutput_output_bound (gen : Server.ErrorPage) (s : Server) (p : Int)
    (cgi : CgiState) (n : Int) (buffer : Bytes)
    (hinv : cgiOutputBounded s)
    (hcgi : mapFind s.cgiStates p = some cgi) :
    (n = 0 → mapFind s.clients cgi.clientSocket = none →
      Server.handleCgiOutput gen s p n buffer = none) ∧
    (¬ (n = 0 ∧ mapFind s.clients cgi.clientSocket = none) →
      ∃ s', Server.handleCgiOutput gen s p n buffer = some s' ∧
        cgiOutputBounded s' ∧
        (0 < n →
          (cgi.cgiResponseMessage ++ buffer.take n.toNat).length ≤ Server.CGI_MAX_OUTPUT_SIZE →
          mapFind s'.cgiStates p = some { cgi with
            cgiResponseMessage := cgi.cgiResponseMessage ++ buffer.take n.toNat } ∧
          s'.responses = s.responses ∧ s'.clients = s.clients) ∧
        (0 < n →
          Server.CGI_MAX_OUTPUT_SIZE < (cgi.cgiResponseMessage ++ buffer.take n.toNat).length →
          mapFind s'.cgiStates p = none ∧
          mapFind s'.clients cgi.clientSocket = none ∧
          mapFind s'.responses cgi.clientSocket = some (ResponseState.small
            (gen "500".toList "Internal Server Error".toList "500 Internal Server Error".toList
              Server.cgiOverflowDetail).buildResponse true) ∧
          SysCall.kill cgi.pid ∈ s'.trace) ∧
        (n = 0 → mapFind s'.cgiStates p = none ∧
          mapFind s'.responses cgi.clientSocket = some (ResponseState.small
            (Server.cgiResponse cgi.cgiResponseMessage).buildResponse false))) := by
  refine ⟨?_, ?_⟩
  · intro hn hc
    subst hn
    simp [Server.handleCgiOutput, hcgi, hc]
  · intro hnot
    apply handleCgiOutput_step gen s p cgi n buffer hinv hcgi
    intro hn
    cases hc : mapFind s.clients cgi.clientSocket with
    | none => exact absurd ⟨hn, hc⟩ hnot
    | some _ => rfl

/-- C6 at the failing input and at the limit. First: client 5 has disconnected
while its CGI child on pipe 7 is running; the bound holds, the CgiState is
in the map, and the 0-byte read on pipe 7 dereferences the null pointer.
Second: an output of 2097151 bytes and a read of one byte reach exactly the
limit, and the CgiState is kept. -/
theorem handleCgiOutput_output_bound_witness :
    (cgiOutputBounded demoOrphanServer ∧
      mapFind demoOrphanServer.cgiStates 7 = some demoCgi ∧
      mapFind demoOrphanServer.clients demoCgi.clientSocket = none ∧
      Server.handleCgiOutput demoGen demoOrphanServer 7 0 [] = none) ∧
    (cgiOutputBounded demoCgiFullServer ∧
      mapFind demoCgiFullServer.cgiStates 7 = some demoCgiFull ∧
      (∃ s', Server.handleCgiOutput demoGen demoCgiFullServer 7 1 ['b'] = some s' ∧
          cgiOutputBounded s' ∧
          ((0 : Int) < 1 →
            (demoCgiFull.cgiResponseMessage ++ ['b'].take (1 : Int).toNat).length ≤
              Server.CGI_MAX_OUTPUT_SIZE →
            mapFind s'.cgiStates 7 = some { demoCgiFull with
              cgiResponseMessage :=
                demoCgiFull.cgiResponseMessage ++ ['b'].take (1 : Int).toNat } ∧
            s'.responses = demoCgiFullServer.responses ∧
            s'.clients = demoCgiFullServer.clients) ∧
          ((0 : Int) < 1 →
            Server.CGI_MAX_OUTPUT_SIZE <
              (demoCgiFull.cgiResponseMessage ++ ['b'].take (1 : Int).toNat).length →
            mapFind s'.cgiStates 7 = none ∧
            mapFind s'.clients demoCgiFull.clientSocket = none ∧
            mapFind s'.responses demoCgiFull.clientSocket = some (ResponseState.small
              (demoGen "500".toList "Internal Server Error".toList
                "500 Internal Server Error".toList Server.cgiOverflowDetail).buildResponse
              true) ∧
            SysCall.kill demoCgiFull.pid ∈ s'.trace) ∧
          ((1 : Int) = 0 → mapFind s'.cgiStates 7 = none ∧
            mapFind s'.responses demoCgiFull.clientSocket = some (ResponseState.small
              (Server.cgiResponse demoCgiFull.cgiResponseMessage).buildResponse false)))) := by
  have horphan : cgiOutputBounded demoOrphanServer := by
    intro fd cgi h
    have hs : demoOrphanServer.cgiStates = [(7, demoCgi)] := by decide
    rw [hs] at h
    simp only [mapFind] at h
    split at h
    · cases h; decide
    · cases h
  have hfull : cgiOutputBounded demoCgiFullServer := by
    intro fd cgi h
    simp only [demoCgiFullServer, demoCgiServer, mapFind] at h
    split at h
    · cases h
      simp only [demoCgiFull, List.length_replicate, Server.CGI_MAX_OUTPUT_SIZE]
      decide
    · cases h
  exact ⟨⟨horphan, by decide, by decide,
      (handleCgiOutput_output_bound demoGen demoOrphanServer 7 demoCgi 0 [] horphan
        (by decide)).1 rfl (by decide)⟩,
    ⟨hfull, rfl,
      (handleCgiOutput_output_bound demoGen demoCgiFullServer 7 demoCgiFull 1 ['b'] hfull
        rfl).2 (fun h => absurd h.1 (by decide))⟩⟩

/-! ## C7: read events before write events -/

/-- A `for` loop over the indices of an array, with a body that skips the
events a test rejects, is the left fold of the handler over the accepted
events of the batch from the start index on. -/
theorem forLoop_eq_foldl {σ : Type} (f : Kevent → σ → σ) (keep : Kevent → Bool)
    (events : List Kevent) (nev : Nat) :
    ∀ (fuel ev : Nat) (st : σ), nev - ev ≤ fuel →
      forLoop (fun ev st =>
        match events.get? ev with
        | some e => if keep e = true then f e st else st
        | none => st) nev fuel ev st =
      (((events.take nev).drop ev).filter keep).foldl (fun st e => f e st) st := by
  intro fuel
  induction fuel with
  | zero =>
    intro ev st h
    have : nev ≤ ev := by omega
    have hnil : (events.take nev).drop ev = [] := by
      apply List.drop_eq_nil_of_le
      simp only [List.length_take]
      omega
    simp [forLoop, hnil]
  | succ fuel ih =>
    intro ev st h
    simp only [forLoop]
    by_cases hlt : ev < nev
    · simp only [hlt, if_true]
      rw [ih (ev + 1) _ (by omega)]
      by_cases hlen : ev < events.length
      · have hget : events.get? ev = some (events.get ⟨ev, hlen⟩) := List.get?_eq_get hlen
        have hlen' : ev < (events.take nev).length := by
          simp only [List.length_take]; omega
        have hdrop : (events.take nev).drop ev =
            events.get ⟨ev, hlen⟩ :: (events.take nev).drop (ev + 1) := by
          rw [List.drop_eq_getElem_cons hlen']
          simp [List.getElem_take]
        generalize events.get ⟨ev, hlen⟩ = e at hget hdrop
        rw [hget, hdrop]
        by_cases hk : keep e = true
        · simp [hk, List.filter_cons]
        · simp [hk, List.filter_cons]
      · have hget : events.get? ev = none := List.get?_eq_none.mpr (by omega)
        have h1 : (events.take nev).drop ev = [] := by
          apply List.drop_eq_nil_of_le
          simp only [List.length_take]; omega
        have h2 : (events.take nev).drop (ev + 1) = [] := by
          apply List.drop_eq_nil_of_le
          simp only [List.length_take]; omega
        rw [hget, h1, h2]
    · have hnil : (events.take nev).drop ev = [] := by
        apply List.drop_eq_nil_of_le
        simp only [List.length_take]
        omega
      simp [hlt, hnil]

theorem foldl_dispatch {σ : Type} (h : Kevent → σ → σ) (es : List Kevent) :
    ∀ l : Loop σ, es.foldl (fun l e => dispatch h e l) l =
      { servers := es.foldl (fun st e => h e st) l.servers,
        dispatched := l.dispatched ++ es } := by
  induction es with
  | nil => intro l; simp
  | cons e es ih =>
    intro l
    simp only [List.foldl_cons]
    rw [ih]
    simp [dispatch]

/-- C7: for the `nev` events of one `waitForEvents` call, the sequence of
events `ServerManager::start` hands to its handlers is the read-filter events
of the batch in batch order followed by its write-filter events in batch
order, and the resulting state is that of running `processReadEvent` over the
former and then `processWriteEvent` over the latter. -/
theorem startBatch_reads_before_writes {σ : Type}
    (processReadEvent processWriteEvent : Kevent → σ → σ)
    (events : List Kevent) (nev : Nat) (l : Loop σ) :
    (startBatch processReadEvent processWriteEvent events nev l).dispatched =
      l.dispatched ++
        (events.take nev).filter (fun e => decide (e.filter = Filter.code Filter.EVFILT_READ)) ++
        (events.take nev).filter (fun e => decide (e.filter = Filter.code Filter.EVFILT_WRITE)) ∧
    (startBatch processReadEvent processWriteEvent events nev l).servers =
      ((events.take nev).filter
          (fun e => decide (e.filter = Filter.code Filter.EVFILT_WRITE))).foldl
        (fun st e => processWriteEvent e st)
        (((events.take nev).filter
            (fun e => decide (e.filter = Filter.code Filter.EVFILT_READ))).foldl
          (fun st e => processReadEvent e st) l.servers) := by
  have hr := forLoop_eq_foldl (dispatch processReadEvent)
    (fun e => decide (e.filter = Filter.code Filter.EVFILT_READ)) events nev nev 0 l (by omega)
  have hw := fun l' => forLoop_eq_foldl (dispatch processWriteEvent)
    (fun e => decide (e.filter = Filter.code Filter.EVFILT_WRITE)) events nev nev 0 l' (by omega)
  simp only [decide_eq_true_eq, List.drop_zero] at hr hw
  simp only [startBatch]
  rw [hr, hw, foldl_dispatch, foldl_dispatch]
  simp

/-! ## C8: the result of `recv` -/

/-- C8 (the code at the failing inputs): client 5 is in `clients`. With the
`recv` result -1 the unsigned `bytesRead` is 2^64 - 1, the test `bytesRead < 0`
fails, and the client is kept, its request count incremented, and
`processIncomingData` is called on the buffer with the count 2^64 - 1. With
the `recv` result 0 neither branch runs and the server is left as it was, the
client still in `clients`. -/
theorem handleClientRequest_recv_nonpositive
    (processIncomingData : Server → Int → Bytes → Nat → Server) (buffer : Bytes) (now : Nat) :
    Server.toSizeT (-1) = 18446744073709551615 ∧
    Server.handleClientRequest processIncomingData demoServer 5 (-1) buffer now =
      some (processIncomingData
        { demoServer with
          clients := [(5, { demoClient with lastRequestTime := now, requestCount := 1 })] }
        5 buffer 18446744073709551615) ∧
    Server.handleClientRequest processIncomingData demoServer 5 0 buffer now = some demoServer ∧
    mapFind demoServer.clients 5 = some demoClient := by
  have h : Server.toSizeT (-1) = 18446744073709551615 := by decide
  refine ⟨h, ?_, ?_, by decide⟩
  · simp only [Server.handleClientRequest, h]
    rfl
  · have h0 : Server.toSizeT 0 = 0 := by decide
    simp only [Server.handleClientRequest, h0]
    rfl

/-! ## C9: `handleClientDisconnection` -/

/-- C9 (counterexample): client 5 owns the CgiState on pipe 7; after
`handleClientDisconnection` of 5 the cgi map still holds that CgiState, whose
owning client handle is 5. -/
theorem disconnection_keeps_cgi_state :
    mapFind (demoCgiServer.handleClientDisconnection 5).cgiStates 7 = some demoCgi ∧
    demoCgi.clientSocket = 5 ∧
    ¬ (∀ (fd : Int) (cgi : CgiState),
        mapFind (demoCgiServer.handleClientDisconnection 5).cgiStates fd = some cgi →
        cgi.clientSocket ≠ 5) := by
  refine ⟨by decide, by decide, ?_⟩
  intro h
  exact h 7 demoCgi (by decide) (by decide)

/-- C9 (amended): for every client handle, after `handleClientDisconnection` the
handle is not a key of `clients` and not a key of `responses`, its read and
write interests are not registered, and the handle has been closed; the cgi
map is left exactly as it was. -/
theorem handleClientDisconnection_drops_client_and_response (s : Server) (c : Int) :
    mapFind (s.handleClientDisconnection c).clients c = none ∧
    mapFind (s.handleClientDisconnection c).responses c = none ∧
    (c, Filter.EVFILT_READ) ∉ (s.handleClientDisconnection c).interest ∧
    (mapFind s.responses c ≠ none →
      (c, Filter.EVFILT_WRITE) ∉ (s.handleClientDisconnection c).interest) ∧
    (s.handleClientDisconnection c).trace.getLast? = some (SysCall.close c) ∧
    (s.handleClientDisconnection c).cgiStates = s.cgiStates := by
  cases hfind : mapFind s.responses c with
  | none =>
    simp [Server.handleClientDisconnection, Server.unregisterEvent, Server.close, mapCount,
      hfind, mapFind_mapErase_self, List.mem_filter]
  | some rs =>
    simp [Server.handleClientDisconnection, Server.unregisterEvent, Server.close, mapCount,
      hfind, mapFind_mapErase_self, List.mem_filter]

/-! ## C10: responses of removed clients -/

/-- C10 (the code at the failing input): client 5 has been idle for longer than
the keepalive timeout of 60 s and has a keepalive response in flight. The
invariant holds before `checkForTimeouts`; the sweep removes the client and
closes the handle but leaves the response in `responses`, so the invariant
does not hold after it. -/
theorem checkForTimeouts_leaves_response :
    responsesOwned demoIdleServer = true ∧
    (demoIdleServer.checkForTimeouts 60000000001).clients = [] ∧
    mapFind (demoIdleServer.checkForTimeouts 60000000001).responses 5 = some demoKeepalive ∧
    demoKeepalive.closeConnection = false ∧
    (demoIdleServer.checkForTimeouts 60000000001).trace =
      [SysCall.unregisterEvent 5 Filter.EVFILT_READ, SysCall.close 5] ∧
    responsesOwned (demoIdleServer.checkForTimeouts 60000000001) = false := by
  decide



/-! ## C11: handles closed twice -/

/-- C11 (the code at the failing input): client 5 is connected and
`processPostRequest` installs its response with `closeConnection = true`,
leaving the client in `clients`. The send of the whole response (21 bytes)
closes handle 5; the next timeout sweep, with the client idle for 61 s, closes
handle 5 again, and so does a disconnection, with no accept in between. -/
theorem close_after_send_closed_again :
    (Server.processPostRequest (fun _ => false) demoHandler demoConfig demoQuietServer 5
        (demoRequest "/upload".toList) true).map
      (fun s => (mapFind s.clients 5).isSome) = some true ∧
    (Server.processPostRequest (fun _ => false) demoHandler demoConfig demoQuietServer 5
        (demoRequest "/upload".toList) true).map
      (fun s => ((s.handleClientResponse 5 21 0).checkForTimeouts 61000000000).trace) =
      some [SysCall.registerEvent 5 Filter.EVFILT_WRITE,
        SysCall.send 5 "HTTP/1.1 200 OK\r\n\r\nok".toList 21,
        SysCall.unregisterEvent 5 Filter.EVFILT_WRITE,
        SysCall.close 5,
        SysCall.unregisterEvent 5 Filter.EVFILT_READ,
        SysCall.close 5] ∧
    (Server.processPostRequest (fun _ => false) demoHandler demoConfig demoQuietServer 5
        (demoRequest "/upload".toList) true).map
      (fun s => ((s.handleClientResponse 5 21 0).handleClientDisconnection 5).trace) =
      some [SysCall.registerEvent 5 Filter.EVFILT_WRITE,
        SysCall.send 5 "HTTP/1.1 200 OK\r\n\r\nok".toList 21,
        SysCall.unregisterEvent 5 Filter.EVFILT_WRITE,
        SysCall.close 5,
        SysCall.unregisterEvent 5 Filter.EVFILT_READ,
        SysCall.close 5] := by
  decide

/-! ## C13: the sweeps of `checkTimeouts` -/

theorem checkForTimeoutsLoop_keeps (now : Nat) (l : List (Int × ClientState)) :
    ∀ s : Server, (Server.checkForTimeoutsLoop now l s).cgiStates = s.cgiStates ∧
      (Server.checkForTimeoutsLoop now l s).responses = s.responses := by
  induction l with
  | nil => intro s; exact ⟨rfl, rfl⟩
  | cons p rest ih =>
    intro s
    obtain ⟨fd, client⟩ := p
    simp only [Server.checkForTimeoutsLoop]
    split
    · have := ih (({ (s.unregisterEvent fd Filter.EVFILT_READ).close fd with
          clients := mapErase ((s.unregisterEvent fd Filter.EVFILT_READ).close fd).clients fd }))
      simpa [Server.unregisterEvent, Server.close] using this
    · exact ih s

/-- C13 (the code at the failing input): `checkTimeouts` runs only the client
sweep. For every list of servers and every pair of times, the cgi maps and
the response maps of all servers are the same after the call as before. For
a server whose CGI child on pipe 7 has run for 20 s (CgiTimeout is 10 s) and
whose last sweep was 20 s ago, the call leaves the CgiState in place and
installs no response for its client 5. -/
theorem checkTimeouts_skips_cgi_sweep (servers : List Server) (lastTimeoutCheck now : Nat) :
    (checkTimeouts servers lastTimeoutCheck now).1.map (fun s => s.cgiStates) =
      servers.map (fun s => s.cgiStates) ∧
    (checkTimeouts servers lastTimeoutCheck now).1.map (fun s => s.responses) =
      servers.map (fun s => s.responses) ∧
    demoCgi.isTimedOut 20000000000 Server.CGI_TIMEOUT = true ∧
    checkTimeouts [demoCgiServer] 0 20000000000 = ([demoCgiServer], 20000000000) ∧
    mapFind demoCgiServer.cgiStates 7 = some demoCgi ∧
    mapFind demoCgiServer.responses 5 = none := by
  refine ⟨?_, ?_, by decide, by decide, by decide, by decide⟩
  · unfold checkTimeouts
    split
    · simp only [List.map_map]
      apply List.map_congr_left
      intro s _
      exact (checkForTimeoutsLoop_keeps now s.clients s).1
    · rfl
  · unfold checkTimeouts
    split
    · simp only [List.map_map]
      apply List.map_congr_left
      intro s _
      exact (checkForTimeoutsLoop_keeps now s.clients s).2
    · rfl

/-! ## C14: the extension test of `validCgiRequest` -/

/-- C14 (the code at the failing input): the file `/var/www/cgi-bin/hello.world.py`
exists, lies under `/cgi-bin`, and `.py` is in the CGI extension list, yet
`validCgiRequest` returns false: `validateFileExtension` compares the suffix
from the first `.` of the URI, here `.world.py`, with the list. For
`/cgi-bin/hello.py` the result is true. -/
theorem validCgiRequest_first_dot :
    Server.validCgiRequest (fun _ => true) (demoRequest "/cgi-bin/hello.world.py".toList)
      demoConfig = false ∧
    Server.validateFileExtension demoConfig (demoRequest "/cgi-bin/hello.world.py".toList)
      = false ∧
    (strFindChar '.' "/cgi-bin/hello.world.py".toList).map
      (fun pos => "/cgi-bin/hello.world.py".toList.drop pos) = some ".world.py".toList ∧
    demoConfig.cgiExtensions.contains ".py".toList = true ∧
    Server.validCgiRequest (fun _ => true) (demoRequest "/cgi-bin/hello.py".toList)
      demoConfig = true := by
  decide

/-! ## C16, C17, C19: requests the parser mishandles -/

/-- C16 (the code at the failing input): a request with a valid request line
and eleven header lines, the first `Host: x` and the last `Host: y`. The loop
of `requestTokenizer` stops before the eleventh header line (its counter, 11,
is not below the 11 remaining bytes), so the second host header is never seen
and the parsed status is 200. -/
theorem two_hosts_accepted :
    (HttpRequest.parse demoTwoHosts).toOption.map (fun r => (r.status, r.host)) =
      some (200, "x".toList) ∧
    HttpRequest.requestTokenizerLoop (demoTwoHosts.length + 1) 0 demoTwoHosts [] =
      some ["GET / HTTP/1.1".toList, "Host: x".toList, "A: 1".toList, "B: 1".toList,
        "C: 1".toList, "D: 1".toList, "E: 1".toList, "F: 1".toList, "G: 1".toList,
        "H: 1".toList, "I: 1".toList] := by
  decide

/-- C17 (the code at the failing input): for the requests with the single host
header `host: x` or `HOST: x`, `searchForHost` finds the header ignoring case,
and the lookup `headers.find("Host")` that follows finds no entry: its `end()`
iterator is dereferenced. With `Host: x` parsing succeeds with status 200 and
host `x`. -/
theorem lower_case_host_lookup_fails :
    HttpRequest.parse "GET / HTTP/1.1\r\nhost: x\r\n\r\n".toList =
      Except.error Fault.endIteratorDereferenced ∧
    HttpRequest.parse "GET / HTTP/1.1\r\nHOST: x\r\n\r\n".toList =
      Except.error Fault.endIteratorDereferenced ∧
    (HttpRequest.parse "GET / HTTP/1.1\r\nHost: x\r\n\r\n".toList).toOption.map
      (fun r => (r.status, r.getHost)) = some (200, "x".toList) := by
  refine ⟨?_, ?_, ?_⟩
  · decide
  · decide
  · decide

/-- C19 (the code at the failing input): a well-formed request with eight
header lines `Host: x`, `A: 1`, ..., `G: 1`. The loop of `requestTokenizer`
stops before the eighth header line (its counter, 8, is not below the 8
remaining bytes `G: 1\r\n\r\n`): parsing yields status 200, but `G` is not a key
of the header map. -/
theorem last_header_dropped :
    (HttpRequest.parse demoEightHeaders).toOption.map
      (fun r => (r.status, r.method, r.uri, r.version)) =
      some (200, "GET".toList, "/".toList, "HTTP/1.1".toList) ∧
    (HttpRequest.parse demoEightHeaders).toOption.map
      (fun r => r.headers.map Prod.fst) =
      some ["A".toList, "B".toList, "C".toList, "D".toList, "E".toList, "F".toList,
        "Host".toList] ∧
    (HttpRequest.parse demoEightHeaders).toOption.map
      (fun r => mapFind r.headers "G".toList) = some none := by
  decide


/-! ## C12: the CGI timeout sweep -/

theorem handleInvalidRequest_responses_ne (gen : Server.ErrorPage) (s : Server) (c j code : Int)
    (detail : Bytes) (hne : j ≠ c) :
    mapFind (Server.handleInvalidRequest gen s c code detail).responses j =
      mapFind s.responses j := by
  simp only [Server.handleInvalidRequest, Server.registerEvent]
  rw [mapFind_mapAssign_ne _ _ _ _ _ hne, removeClient_responses]

theorem removeClient_clients_ne (s : Server) (c j : Int) (hne : j ≠ c) :
    mapFind (s.removeClient c).clients j = mapFind s.clients j := by
  unfold Server.removeClient
  cases h : mapFind s.clients c with
  | none => rfl
  | some v => simpa [Server.unregisterEvent] using mapFind_mapErase_ne s.clients c j hne

theorem handleInvalidRequest_clients_ne (gen : Server.ErrorPage) (s : Server) (c j code : Int)
    (detail : Bytes) (hne : j ≠ c) :
    mapFind (Server.handleInvalidRequest gen s c code detail).clients j =
      mapFind s.clients j := by
  simp only [Server.handleInvalidRequest, Server.registerEvent]
  exact removeClient_clients_ne s c j hne


theorem checkForCgiTimeoutsLoop_cons (gen : Server.ErrorPage) (now : Nat) (fd : Int)
    (cgi : CgiState) (rest : List (Int × CgiState)) (s : Server) :
    Server.checkForCgiTimeoutsLoop gen now ((fd, cgi) :: rest) s =
      if cgi.isTimedOut now Server.CGI_TIMEOUT = true then
        Server.checkForCgiTimeoutsLoop gen now rest (Server.cgiTimeoutStep gen s fd cgi)
      else Server.checkForCgiTimeoutsLoop gen now rest s := by
  simp only [Server.checkForCgiTimeoutsLoop, Server.cgiTimeoutStep]

theorem cgiTimeoutStep_cgiStates (gen : Server.ErrorPage) (s : Server) (fd : Int)
    (cgi : CgiState) : (Server.cgiTimeoutStep gen s fd cgi).cgiStates = mapErase s.cgiStates fd := by
  simp [Server.cgiTimeoutStep, handleInvalidRequest_cgiStates, Server.kill, Server.close,
    Server.unregisterEvent]

theorem cgiTimeoutStep_answer (gen : Server.ErrorPage) (s : Server) (fd : Int) (cgi : CgiState) :
    timedOutAnswer gen (Server.cgiTimeoutStep gen s fd cgi) cgi.clientSocket := by
  refine ⟨?_, ?_⟩
  · simpa [Server.cgiTimeoutStep] using
      handleInvalidRequest_find_response gen _ cgi.clientSocket 504 Server.cgiTimeoutDetail
  · simpa [Server.cgiTimeoutStep] using handleInvalidRequest_find_client gen _ _ _ _

theorem cgiTimeoutStep_keeps_answer (gen : Server.ErrorPage) (s : Server) (fd : Int)
    (cgi : CgiState) (c : Int) (h : timedOutAnswer gen s c) :
    timedOutAnswer gen (Server.cgiTimeoutStep gen s fd cgi) c := by
  by_cases hc : c = cgi.clientSocket
  · subst hc; exact cgiTimeoutStep_answer gen s fd cgi
  · refine ⟨?_, ?_⟩
    · have := handleInvalidRequest_responses_ne gen
        (((s.unregisterEvent fd Filter.EVFILT_READ).close fd).kill cgi.pid) cgi.clientSocket c
        504 Server.cgiTimeoutDetail hc
      simp only [Server.cgiTimeoutStep]
      rw [this]
      exact h.1
    · have := handleInvalidRequest_clients_ne gen
        (((s.unregisterEvent fd Filter.EVFILT_READ).close fd).kill cgi.pid) cgi.clientSocket c
        504 Server.cgiTimeoutDetail hc
      simp only [Server.cgiTimeoutStep]
      rw [this]
      exact h.2

theorem checkForCgiTimeoutsLoop_keeps_answer (gen : Server.ErrorPage) (now : Nat) (c : Int)
    (l : List (Int × CgiState)) :
    ∀ s : Server, timedOutAnswer gen s c →
      timedOutAnswer gen (Server.checkForCgiTimeoutsLoop gen now l s) c := by
  induction l with
  | nil => intro s h; exact h
  | cons p rest ih =>
    intro s h
    obtain ⟨fd, cgi⟩ := p
    rw [checkForCgiTimeoutsLoop_cons]
    split
    · exact ih _ (cgiTimeoutStep_keeps_answer gen s fd cgi c h)
    · exact ih _ h

theorem checkForCgiTimeoutsLoop_answer (gen : Server.ErrorPage) (now : Nat) (fd : Int)
    (cgi : CgiState) (l : List (Int × CgiState)) :
    ∀ s : Server, (fd, cgi) ∈ l → cgi.isTimedOut now Server.CGI_TIMEOUT = true →
      timedOutAnswer gen (Server.checkForCgiTimeoutsLoop gen now l s) cgi.clientSocket := by
  induction l with
  | nil => intro s h; cases h
  | cons p rest ih =>
    intro s hmem hto
    obtain ⟨fd0, cgi0⟩ := p
    rw [checkForCgiTimeoutsLoop_cons]
    rcases List.mem_cons.mp hmem with heq | hrest
    · cases heq
      rw [if_pos hto]
      exact checkForCgiTimeoutsLoop_keeps_answer gen now _ rest _
        (cgiTimeoutStep_answer gen s fd cgi)
    · split
      · exact ih _ hrest hto
      · exact ih _ hrest hto

theorem checkForCgiTimeoutsLoop_cgiStates (gen : Server.ErrorPage) (now : Nat) (fd : Int)
    (l : List (Int × CgiState)) :
    ∀ s : Server, mapFind (Server.checkForCgiTimeoutsLoop gen now l s).cgiStates fd =
      if l.any (fun p => decide (p.1 = fd) && p.2.isTimedOut now Server.CGI_TIMEOUT) = true
      then none else mapFind s.cgiStates fd := by
  induction l with
  | nil => intro s; simp [Server.checkForCgiTimeoutsLoop]
  | cons p rest ih =>
    intro s
    obtain ⟨fd0, cgi0⟩ := p
    rw [checkForCgiTimeoutsLoop_cons]
    by_cases hto : cgi0.isTimedOut now Server.CGI_TIMEOUT = true
    · rw [if_pos hto, ih, cgiTimeoutStep_cgiStates]
      by_cases hfd : fd0 = fd
      · subst hfd
        simp [hto, mapFind_mapErase_self]
      · have hne : fd ≠ fd0 := fun e => hfd e.symm
        have hd : decide (fd0 = fd) = false := by simp [hfd]
        rw [mapFind_mapErase_ne _ _ _ hne, List.any_cons, hd, Bool.false_and, Bool.false_or]
    · have hf : cgi0.isTimedOut now Server.CGI_TIMEOUT = false := by simpa using hto
      rw [if_neg hto, ih, List.any_cons, hf, Bool.and_false, Bool.false_or]

theorem mapFind_of_mem_nodup {α : Type} (l : List (Int × α)) (fd : Int) (v : α)
    (hnodup : (l.map Prod.fst).Nodup) (hmem : (fd, v) ∈ l) : mapFind l fd = some v := by
  induction l with
  | nil => cases hmem
  | cons p rest ih =>
    obtain ⟨k, w⟩ := p
    simp only [List.map_cons, List.nodup_cons] at hnodup
    rcases List.mem_cons.mp hmem with heq | hrest
    · cases heq; simp [mapFind]
    · have hne : fd ≠ k := by
        intro e
        apply hnodup.1
        rw [← e]
        exact List.mem_map_of_mem Prod.fst hrest
      simp only [mapFind, hne, if_false]
      exact ih hnodup.2 hrest

theorem mem_of_mapFind {α : Type} (l : List (Int × α)) (fd : Int) (v : α)
    (h : mapFind l fd = some v) : (fd, v) ∈ l := by
  induction l with
  | nil => cases h
  | cons p rest ih =>
    obtain ⟨k, w⟩ := p
    simp only [mapFind] at h
    split at h
    · rename_i hk
      cases h
      rw [hk]
      exact List.mem_cons_self _ _
    · exact List.mem_cons_of_mem _ (ih h)

/-- C12 (counterexample): a CgiState started at time 0 is 10.5 s old, more than
the CgiTimeout of 10 s, and `checkForCgiTimeouts` keeps it and installs no
response: the age is cast to whole seconds, 10, which is not above 10. -/
theorem half_second_over_is_kept :
    Server.CGI_TIMEOUT * 1000000000 < 10500000000 - demoCgi.startTime ∧
    mapFind demoCgiServer.cgiStates 7 = some demoCgi ∧
    mapFind (Server.checkForCgiTimeouts demoGen demoCgiServer 10500000000).cgiStates 7 =
      some demoCgi ∧
    mapFind (Server.checkForCgiTimeouts demoGen demoCgiServer 10500000000).responses 5 = none := by
  decide

/-- C12 (amended): for every server whose cgi map has pairwise distinct keys and
every current time, `checkForCgiTimeouts` removes from the map exactly the
CgiStates whose age in whole seconds (the age in nanoseconds divided by 10^9,
rounded down) is strictly greater than CgiTimeout, and keeps every other
CgiState unchanged; for each removed state its owning client is detached from
`clients` and `responses` holds for that handle the Small close-after-send
response built from the 504 error page. -/
theorem checkForCgiTimeouts_whole_seconds (gen : Server.ErrorPage) (s : Server) (now : Nat)
    (hnodup : (s.cgiStates.map Prod.fst).Nodup) :
    ∀ (fd : Int) (cgi : CgiState), mapFind s.cgiStates fd = some cgi →
      (Server.CGI_TIMEOUT < (now - cgi.startTime) / 1000000000 →
        mapFind (Server.checkForCgiTimeouts gen s now).cgiStates fd = none ∧
        mapFind (Server.checkForCgiTimeouts gen s now).clients cgi.clientSocket = none ∧
        mapFind (Server.checkForCgiTimeouts gen s now).responses cgi.clientSocket =
          some (ResponseState.small
            (gen "504".toList "Gateway Timeout".toList "504 Gateway Timeout".toList
              Server.cgiTimeoutDetail).buildResponse true)) ∧
      (¬ Server.CGI_TIMEOUT < (now - cgi.startTime) / 1000000000 →
        mapFind (Server.checkForCgiTimeouts gen s now).cgiStates fd = some cgi) := by
  intro fd cgi hfind
  have hmem := mem_of_mapFind _ _ _ hfind
  have hany : (s.cgiStates.any
      (fun p => decide (p.1 = fd) && p.2.isTimedOut now Server.CGI_TIMEOUT) = true) ↔
      cgi.isTimedOut now Server.CGI_TIMEOUT = true := by
    constructor
    · intro h
      obtain ⟨⟨k, v⟩, hkv, hp⟩ := List.any_eq_true.mp h
      simp only [Bool.and_eq_true, decide_eq_true_eq] at hp
      obtain ⟨hk, hv⟩ := hp
      have hk' : k = fd := hk
      subst hk'
      have := mapFind_of_mem_nodup _ _ _ hnodup hkv
      rw [hfind] at this
      cases this
      exact hv
    · intro h
      exact List.any_eq_true.mpr ⟨(fd, cgi), hmem, by simp [h]⟩
  have hstates := checkForCgiTimeoutsLoop_cgiStates gen now fd s.cgiStates s
  constructor
  · intro hlt
    have hto : cgi.isTimedOut now Server.CGI_TIMEOUT = true := by
      simpa [CgiState.isTimedOut] using hlt
    have hans := checkForCgiTimeoutsLoop_answer gen now fd cgi s.cgiStates s hmem hto
    refine ⟨?_, hans.2, hans.1⟩
    unfold Server.checkForCgiTimeouts
    rw [hstates, if_pos (hany.mpr hto)]
  · intro hnlt
    have hto : ¬ cgi.isTimedOut now Server.CGI_TIMEOUT = true := by
      simpa [CgiState.isTimedOut] using hnlt
    unfold Server.checkForCgiTimeouts
    rw [hstates, if_neg (fun h => hto (hany.mp h))]
    exact hfind

/-- C12 (amended) at a concrete input: the CGI child on pipe 7 is 20 s old. -/
theorem checkForCgiTimeouts_whole_seconds_witness :
    (demoCgiServer.cgiStates.map Prod.fst).Nodup ∧
    ∀ (fd : Int) (cgi : CgiState), mapFind demoCgiServer.cgiStates fd = some cgi →
      (Server.CGI_TIMEOUT < (20000000000 - cgi.startTime) / 1000000000 →
        mapFind (Server.checkForCgiTimeouts demoGen demoCgiServer 20000000000).cgiStates fd =
          none ∧
        mapFind (Server.checkForCgiTimeouts demoGen demoCgiServer 20000000000).clients
          cgi.clientSocket = none ∧
        mapFind (Server.checkForCgiTimeouts demoGen demoCgiServer 20000000000).responses
          cgi.clientSocket =
          some (ResponseState.small
            (demoGen "504".toList "Gateway Timeout".toList "504 Gateway Timeout".toList
              Server.cgiTimeoutDetail).buildResponse true)) ∧
      (¬ Server.CGI_TIMEOUT < (20000000000 - cgi.startTime) / 1000000000 →
        mapFind (Server.checkForCgiTimeouts demoGen demoCgiServer 20000000000).cgiStates fd =
          some cgi) :=
  ⟨by decide, checkForCgiTimeouts_whole_seconds demoGen demoCgiServer 20000000000 (by decide)⟩


/-! ## C20: `buildResponse` and `setHeader` -/

theorem char_toNat_inj {a b : Char} (h : a.toNat = b.toNat) : a = b := by
  apply Char.eq_of_val_eq
  apply UInt32.eq_of_val_eq
  apply Fin.eq_of_val_eq
  exact h

theorem strLess_irrefl : ∀ a : Bytes, strLess a a = false
  | [] => rfl
  | c :: cs => by simp [strLess, strLess_irrefl cs]

theorem strLess_total : ∀ a b : Bytes, a ≠ b → strLess a b = false → strLess b a = true
  | [], [], h, _ => absurd rfl h
  | [], _ :: _, _, h => by simp [strLess] at h
  | _ :: _, [], _, _ => rfl
  | x :: xs, y :: ys, hne, h => by
    simp only [strLess] at h ⊢
    by_cases h1 : x.toNat < y.toNat
    · simp [h1] at h
    · by_cases h2 : y.toNat < x.toNat
      · simp [h2]
      · have hxy : x = y := char_toNat_inj (by omega)
        subst hxy
        simp only [h1, if_false] at h ⊢
        exact strLess_total xs ys (fun e => hne (by rw [e])) h

theorem strLess_trans : ∀ a b c : Bytes, strLess a b = true → strLess b c = true →
    strLess a c = true
  | [], [], _, h, _ => by simp [strLess] at h
  | [], _ :: _, [], _, h => by simp [strLess] at h
  | [], _ :: _, _ :: _, _, _ => rfl
  | _ :: _, [], _, h, _ => by simp [strLess] at h
  | _ :: _, _ :: _, [], _, h => by simp [strLess] at h
  | x :: xs, y :: ys, z :: zs, hab, hbc => by
    simp only [strLess] at hab hbc ⊢
    by_cases h1 : x.toNat < y.toNat
    · by_cases h2 : y.toNat < z.toNat
      · have : x.toNat < z.toNat := by omega
        simp [this]
      · by_cases h3 : z.toNat < y.toNat
        · simp [h2, h3] at hbc
        · have : x.toNat < z.toNat := by omega
          simp [this]
    · by_cases h1' : y.toNat < x.toNat
      · simp [h1, h1'] at hab
      · simp only [h1, h1', if_false] at hab
        by_cases h2 : y.toNat < z.toNat
        · have : x.toNat < z.toNat := by omega
          simp [this]
        · by_cases h3 : z.toNat < y.toNat
          · simp [h2, h3] at hbc
          · simp only [h2, h3, if_false] at hbc
            have hxz : ¬ x.toNat < z.toNat := by omega
            have hzx : ¬ z.toNat < x.toNat := by omega
            simp only [hxz, hzx, if_false]
            exact strLess_trans xs ys zs hab hbc

theorem mem_mapAssign {κ α : Type} [DecidableEq κ] (lt : κ → κ → Bool) (m : List (κ × α))
    (k : κ) (v : α) (p : κ × α) (h : p ∈ mapAssign lt m k v) : p = (k, v) ∨ p ∈ m := by
  induction m with
  | nil => simpa [mapAssign] using h
  | cons q rest ih =>
    obtain ⟨k', v'⟩ := q
    simp only [mapAssign] at h
    split at h
    · rcases List.mem_cons.mp h with h | h
      · exact Or.inl h
      · exact Or.inr (List.mem_cons_of_mem _ h)
    · split at h
      · rcases List.mem_cons.mp h with h | h
        · exact Or.inl h
        · exact Or.inr h
      · rcases List.mem_cons.mp h with h | h
        · exact Or.inr (h ▸ List.mem_cons_self _ _)
        · rcases ih h with h | h
          · exact Or.inl h
          · exact Or.inr (List.mem_cons_of_mem _ h)

theorem headersSorted_mapAssign (m : List (Bytes × Bytes)) (k v : Bytes)
    (hs : headersSorted m) : headersSorted (mapAssign strLess m k v) := by
  induction m with
  | nil => simp [mapAssign, headersSorted]
  | cons q rest ih =>
    obtain ⟨k', v'⟩ := q
    unfold headersSorted at hs ih ⊢
    rw [List.pairwise_cons] at hs
    simp only [mapAssign]
    split
    · rename_i hk
      subst hk
      exact List.pairwise_cons.mpr ⟨hs.1, hs.2⟩
    · rename_i hk
      split
      · rename_i hlt
        refine List.pairwise_cons.mpr ⟨?_, List.pairwise_cons.mpr hs⟩
        intro b hb
        rcases List.mem_cons.mp hb with hb | hb
        · rw [hb]; exact hlt
        · exact strLess_trans _ _ _ hlt (hs.1 b hb)
      · rename_i hlt
        refine List.pairwise_cons.mpr ⟨?_, ih hs.2⟩
        intro b hb
        rcases mem_mapAssign _ _ _ _ _ hb with hb | hb
        · rw [hb]
          exact strLess_total k k' hk (by simpa using hlt)
        · exact hs.1 b hb

theorem headersSorted_nodup (m : List (Bytes × Bytes)) (hs : headersSorted m) :
    (m.map Prod.fst).Nodup := by
  unfold headersSorted at hs
  rw [List.Nodup, List.pairwise_map]
  apply hs.imp
  intro a b hab heq
  rw [heq, strLess_irrefl] at hab
  cases hab

theorem setHeaders_fields (calls : List (Bytes × Bytes)) :
    ∀ r : HttpResponse, (setHeaders r calls).version = r.version ∧
      (setHeaders r calls).statusCode = r.statusCode ∧
      (setHeaders r calls).statusMessage = r.statusMessage ∧
      (setHeaders r calls).body = r.body := by
  induction calls with
  | nil => intro r; exact ⟨rfl, rfl, rfl, rfl⟩
  | cons c cs ih =>
    intro r
    simpa [setHeaders, HttpResponse.setHeader] using ih (r.setHeader c.1 c.2)

theorem setHeaders_sorted (calls : List (Bytes × Bytes)) :
    ∀ r : HttpResponse, headersSorted r.headers → headersSorted (setHeaders r calls).headers := by
  induction calls with
  | nil => intro r h; exact h
  | cons c cs ih =>
    intro r h
    exact ih (r.setHeader c.1 c.2) (headersSorted_mapAssign _ _ _ h)

theorem setHeaders_find (calls : List (Bytes × Bytes)) (k : Bytes) :
    ∀ r : HttpResponse, mapFind (setHeaders r calls).headers k =
      match lastSet calls k with
      | some v => some v
      | none => mapFind r.headers k := by
  induction calls with
  | nil => intro r; rfl
  | cons c cs ih =>
    intro r
    have := ih (r.setHeader c.1 c.2)
    simp only [setHeaders, List.foldl_cons] at this ⊢
    rw [this]
    simp only [lastSet]
    cases lastSet cs k with
    | some v => rfl
    | none =>
      by_cases hk : c.1 = k
      · subst hk
        simp [HttpResponse.setHeader, mapFind_mapAssign_self]
      · have hne : k ≠ c.1 := fun e => hk e.symm
        simp [HttpResponse.setHeader, mapFind_mapAssign_ne _ _ _ _ _ hne, hk]

theorem headersToString_eq_join (m : List (Bytes × Bytes)) :
    HttpResponse.headersToString m =
      (m.map (fun kv => kv.1 ++ ": ".toList ++ kv.2 ++ "\r\n".toList)).flatten := by
  induction m with
  | nil => rfl
  | cons p rest ih =>
    obtain ⟨k, v⟩ := p
    simp [HttpResponse.headersToString, ih]

theorem mapFind_iff_mem_of_nodup (m : List (Bytes × Bytes)) (k v : Bytes)
    (hn : (m.map Prod.fst).Nodup) : mapFind m k = some v ↔ (k, v) ∈ m := by
  induction m with
  | nil => simp [mapFind]
  | cons p rest ih =>
    obtain ⟨k', v'⟩ := p
    simp only [List.map_cons, List.nodup_cons] at hn
    simp only [mapFind]
    by_cases hk : k = k'
    · subst hk
      simp only [if_true, Option.some.injEq, List.mem_cons, Prod.mk.injEq, true_and]
      constructor
      · intro h; exact Or.inl h.symm
      · rintro (h | h)
        · exact h.symm
        · exact absurd (List.mem_map_of_mem Prod.fst h) hn.1
    · simp only [hk, if_false, List.mem_cons, Prod.mk.injEq, false_and, false_or]
      exact ih hn.2

/-- C20: for every HttpResponse (its header map in key order, as a `std::map`
is) and every sequence of `setHeader` calls on it, `buildResponse` is
version, space, status code, space, status message, CRLF, then one line
key, colon, space, value, CRLF for each entry of the header map, then CRLF,
then the body; the entries are in strictly ascending key order, so every key
appears once; and a pair (key, value) is an entry exactly when value is the
one of the last `setHeader` call for key, or, for a key never set, the value
it had before. -/
theorem buildResponse_format (r : HttpResponse) (calls : List (Bytes × Bytes))
    (hsorted : headersSorted r.headers) :
    (setHeaders r calls).buildResponse =
      r.version ++ " ".toList ++ r.statusCode ++ " ".toList ++ r.statusMessage ++ "\r\n".toList ++
        ((setHeaders r calls).headers.map
          (fun kv => kv.1 ++ ": ".toList ++ kv.2 ++ "\r\n".toList)).flatten ++
        "\r\n".toList ++ r.body ∧
    headersSorted (setHeaders r calls).headers ∧
    ((setHeaders r calls).headers.map Prod.fst).Nodup ∧
    ∀ k v : Bytes, (k, v) ∈ (setHeaders r calls).headers ↔
      (match lastSet calls k with
        | some w => some w
        | none => mapFind r.headers k) = some v := by
  have hs := setHeaders_sorted calls r hsorted
  have hn := headersSorted_nodup _ hs
  obtain ⟨h1, h2, h3, h4⟩ := setHeaders_fields calls r
  refine ⟨?_, hs, hn, ?_⟩
  · simp only [HttpResponse.buildResponse, HttpResponse.getStatusLine,
      HttpResponse.getHeadersAsString, HttpResponse.getBody, h1, h2, h3, h4,
      headersToString_eq_join]
  · intro k v
    rw [← mapFind_iff_mem_of_nodup _ _ _ hn, setHeaders_find]

/-- C20 at a concrete input: `Server` set twice, `Content-Length` once. -/
theorem buildResponse_format_witness :
    headersSorted HttpResponse.new.headers ∧
    ((setHeaders HttpResponse.new
        [("Server".toList, "a".toList), ("Content-Length".toList, "2".toList),
          ("Server".toList, "Nginx 2.0".toList)]).buildResponse =
      HttpResponse.new.version ++ " ".toList ++ HttpResponse.new.statusCode ++ " ".toList ++
        HttpResponse.new.statusMessage ++ "\r\n".toList ++
        ((setHeaders HttpResponse.new
          [("Server".toList, "a".toList), ("Content-Length".toList, "2".toList),
            ("Server".toList, "Nginx 2.0".toList)]).headers.map
          (fun kv => kv.1 ++ ": ".toList ++ kv.2 ++ "\r\n".toList)).flatten ++
        "\r\n".toList ++ HttpResponse.new.body ∧
    headersSorted (setHeaders HttpResponse.new
        [("Server".toList, "a".toList), ("Content-Length".toList, "2".toList),
          ("Server".toList, "Nginx 2.0".toList)]).headers ∧
    ((setHeaders HttpResponse.new
        [("Server".toList, "a".toList), ("Content-Length".toList, "2".toList),
          ("Server".toList, "Nginx 2.0".toList)]).headers.map Prod.fst).Nodup ∧
    ∀ k v : Bytes, (k, v) ∈ (setHeaders HttpResponse.new
        [("Server".toList, "a".toList), ("Content-Length".toList, "2".toList),
          ("Server".toList, "Nginx 2.0".toList)]).headers ↔
      (match lastSet [("Server".toList, "a".toList), ("Content-Length".toList, "2".toList),
          ("Server".toList, "Nginx 2.0".toList)] k with
        | some w => some w
        | none => mapFind HttpResponse.new.headers k) = some v) :=
  ⟨List.Pairwise.nil, buildResponse_format HttpResponse.new
    [("Server".toList, "a".toList), ("Content-Length".toList, "2".toList),
      ("Server".toList, "Nginx 2.0".toList)] List.Pairwise.nil⟩



/-! ## C18: the version token -/

theorem isDigit_ne (c : Char) (h : c.isDigit = true) : c ≠ '.' ∧ c ≠ '/' := by
  constructor
  · rintro rfl; revert h; decide
  · rintro rfl; revert h; decide

theorem splitOn_of_not_mem (delim : Char) :
    ∀ s : Bytes, (∀ c ∈ s, c ≠ delim) → splitOn delim s = [s]
  | [], _ => rfl
  | x :: xs, h => by
    have hx : x ≠ delim := h x (List.mem_cons_self _ _)
    have hxs := splitOn_of_not_mem delim xs (fun c hc => h c (List.mem_cons_of_mem _ hc))
    simp [splitOn, hx, hxs]

theorem splitOn_cons_delim (delim : Char) (xs : Bytes) :
    splitOn delim (delim :: xs) = [] :: splitOn delim xs := by
  simp [splitOn]

theorem splitOn_cons_ne (delim x : Char) (xs p : Bytes) (ps : List Bytes) (hx : x ≠ delim)
    (h : splitOn delim xs = p :: ps) : splitOn delim (x :: xs) = (x :: p) :: ps := by
  simp [splitOn, hx, h]

theorem count_dot_digits (ds : Bytes) (h : ∀ c ∈ ds, c.isDigit = true) : ds.count '.' = 0 := by
  apply List.count_eq_zero_of_not_mem
  intro hmem
  exact (isDigit_ne _ (h _ hmem)).1 rfl

theorem validateVersion_digits (r : HttpRequest) (M m : Fin 10) :
    HttpRequest.validateVersion r (versionToken M.val m.val) =
      if M.val = 1 then (true, r) else (false, r.setStatus 505) := by
  fin_cases M <;> fin_cases m <;> rfl

theorem validateVersion_long_minor (r : HttpRequest) (ds : Bytes)
    (hd : ∀ c ∈ ds, c.isDigit = true) (hlen : 2 ≤ ds.length) :
    HttpRequest.validateVersion r ("HTTP/1.".toList ++ ds) = (false, r.setStatus 505) := by
  have hcount := count_dot_digits ds hd
  have hsplit := splitOn_of_not_mem '/' ('1' :: '.' :: ds) (by
    intro c hc
    rcases List.mem_cons.mp hc with h | hc
    · rw [h]; decide
    · rcases List.mem_cons.mp hc with h | hc
      · rw [h]; decide
      · exact (isDigit_ne _ (hd _ hc)).2)
  obtain ⟨a, b, rest, rfl⟩ : ∃ a b rest, ds = a :: b :: rest := by
    match ds, hlen with
    | a :: b :: rest, _ => exact ⟨a, b, rest, rfl⟩
  have hpieces : splitOn '/' ("HTTP/1.".toList ++ a :: b :: rest) =
      ["HTTP".toList, '1' :: '.' :: a :: b :: rest] := by
    have h4 : splitOn '/' ('/' :: '1' :: '.' :: a :: b :: rest) =
        [] :: ['1' :: '.' :: a :: b :: rest] := by rw [splitOn_cons_delim, hsplit]
    have h3 := splitOn_cons_ne '/' 'P' _ _ _ (by decide) h4
    have h2 := splitOn_cons_ne '/' 'T' _ _ _ (by decide) h3
    have h1 := splitOn_cons_ne '/' 'T' _ _ _ (by decide) h2
    exact splitOn_cons_ne '/' 'H' _ _ _ (by decide) h1
  have hc : List.count '.' ("HTTP/1.".toList ++ a :: b :: rest) = 1 := by
    simp only [String.toList, List.cons_append, List.nil_append] at hcount ⊢
    simp [List.count_cons, hcount]
  simp only [HttpRequest.validateVersion, getlines, hpieces, hc]
  simp [strFind, startsWith, HttpRequest.validateVersionLoop, HttpRequest.checkVersionNumber]

/-- C18: for every request object and every version token `HTTP/M.m` with `M`
and `m` decimal digits, `validateVersion` returns true and leaves the request
as it was when `M = 1` (every minor 0 to 9), and returns false with status 505
when `M ≠ 1`; for major 1 followed by a minor of two or more digits (as in
`HTTP/1.10`) it returns false with status 505. -/
theorem validateVersion_accepts_major_one (r : HttpRequest) :
    (∀ M m : Fin 10, HttpRequest.validateVersion r (versionToken M.val m.val) =
      if M.val = 1 then (true, r) else (false, r.setStatus 505)) ∧
    (∀ ds : Bytes, (∀ c ∈ ds, c.isDigit = true) → 2 ≤ ds.length →
      HttpRequest.validateVersion r ("HTTP/1.".toList ++ ds) = (false, r.setStatus 505)) :=
  ⟨validateVersion_digits r, validateVersion_long_minor r⟩

/-- C18 at a concrete input: `HTTP/1.10` is refused with status 505. -/
theorem validateVersion_accepts_major_one_witness :
    (∀ c ∈ "10".toList, c.isDigit = true) ∧ 2 ≤ "10".toList.length ∧
    HttpRequest.validateVersion (blankRequest 200) ("HTTP/1.".toList ++ "10".toList) =
      (false, (blankRequest 200).setStatus 505) :=
  ⟨by decide, by decide,
    (validateVersion_accepts_major_one (blankRequest 200)).2 "10".toList (by decide) (by decide)⟩


/-! ## C15: an unknown method -/

theorem strFind_cons_skip (pat : Bytes) (c : Char) (cs : Bytes) (n : Nat)
    (h : startsWith pat (c :: cs) = false) (hn : strFind pat cs = some n) :
    strFind pat (c :: cs) = some (n + 1) := by
  simp [strFind, h, hn]

theorem strFind_crlf (tail : Bytes) : ∀ line : Bytes, (∀ c ∈ line, c ≠ '\r') →
    strFind "\r\n".toList (line ++ '\r' :: '\n' :: tail) = some line.length
  | [], _ => by simp [strFind, startsWith]
  | x :: xs, h => by
    have hx : x ≠ '\r' := h x (List.mem_cons_self _ _)
    have hx' : ¬ '\r' = x := fun e => hx e.symm
    have ih := strFind_crlf tail xs (fun c hc => h c (List.mem_cons_of_mem _ hc))
    exact strFind_cons_skip _ x _ _ (by simp [startsWith, hx']) ih

theorem requestTokenizerLoop_extends : ∀ (fuel i : Nat) (tmp : Bytes) (vec : List Bytes),
    HttpRequest.requestTokenizerLoop fuel i tmp vec = none ∨
      ∃ more, HttpRequest.requestTokenizerLoop fuel i tmp vec = some (vec ++ more) := by
  intro fuel
  induction fuel with
  | zero => intro i tmp vec; exact Or.inr ⟨[], by simp [HttpRequest.requestTokenizerLoop]⟩
  | succ fuel ih =>
    intro i tmp vec
    simp only [HttpRequest.requestTokenizerLoop]
    split
    · split
      · exact Or.inr ⟨[tmp], rfl⟩
      · rename_i pos _
        split
        · exact Or.inl rfl
        · split
          · exact Or.inr ⟨[tmp.take pos], rfl⟩
          · rcases ih (i + 1) (tmp.drop (pos + 2)) (vec ++ [tmp.take pos]) with h | ⟨more, h⟩
            · exact Or.inl h
            · exact Or.inr ⟨tmp.take pos :: more, by rw [h]; simp⟩
    · exact Or.inr ⟨[], by simp⟩

theorem requestTokenizerLoop_first_line (fuel : Nat) (line tail : Bytes) (hne : line ≠ [])
    (hcr : ∀ c ∈ line, c ≠ '\r') :
    HttpRequest.requestTokenizerLoop (fuel + 1) 0 (line ++ '\r' :: '\n' :: tail) [] = none ∨
      ∃ more, HttpRequest.requestTokenizerLoop (fuel + 1) 0 (line ++ '\r' :: '\n' :: tail) [] =
        some (line :: more) := by
  have hfind := strFind_crlf tail line hcr
  have hlen : 0 < (line ++ '\r' :: '\n' :: tail).length := by simp
  have htake : (line ++ '\r' :: '\n' :: tail).take line.length = line := by simp
  have hdrop : (line ++ '\r' :: '\n' :: tail).drop (line.length + 2) = tail := by
    rw [← List.drop_drop, List.drop_left]
    rfl
  have hemp : line.isEmpty = false := by
    cases line with
    | nil => exact absurd rfl hne
    | cons _ _ => rfl
  simp only [HttpRequest.requestTokenizerLoop, hlen, if_true, hfind, htake, hdrop, hemp,
    Bool.false_eq_true, if_false, List.nil_append]
  split
  · exact Or.inr ⟨[], rfl⟩
  · rcases requestTokenizerLoop_extends fuel 1 tail [line] with h | ⟨more, h⟩
    · exact Or.inl h
    · exact Or.inr ⟨more, by rw [h]; rfl⟩

theorem splitOn_ne_nil (delim : Char) : ∀ s : Bytes, splitOn delim s ≠ []
  | [] => by simp [splitOn]
  | x :: xs => by
    have := splitOn_ne_nil delim xs
    simp only [splitOn]
    split
    · simp
    · split <;> simp

theorem splitOn_append_delim (delim : Char) (rest : Bytes) : ∀ token : Bytes,
    (∀ c ∈ token, c ≠ delim) →
    splitOn delim (token ++ delim :: rest) = token :: splitOn delim rest
  | [], _ => by simp [splitOn_cons_delim]
  | x :: xs, h => by
    have ih := splitOn_append_delim delim rest xs (fun c hc => h c (List.mem_cons_of_mem _ hc))
    exact splitOn_cons_ne delim x _ _ _ (h x (List.mem_cons_self _ _)) ih

theorem getlines_first_token (delim : Char) (token rest : Bytes)
    (h : ∀ c ∈ token, c ≠ delim) :
    ∃ tokens, getlines (token ++ delim :: rest) delim = token :: tokens := by
  simp only [getlines, splitOn_append_delim delim rest token h]
  split
  · cases hq : splitOn delim rest with
    | nil => exact absurd hq (splitOn_ne_nil delim rest)
    | cons p ps => exact ⟨(p :: ps).dropLast, by simp [List.dropLast]⟩
  · exact ⟨_, rfl⟩

theorem validateRequestLine_unknown_method (r : HttpRequest) (method rest : Bytes)
    (hm : method ∉ HttpRequest.possibleHttpRequests) (hsp : ∀ c ∈ method, c ≠ ' ') :
    HttpRequest.validateRequestLine r (method ++ ' ' :: rest) =
      Except.ok (false, r.setStatus 400) := by
  obtain ⟨tokens, htok⟩ := getlines_first_token ' ' method rest hsp
  have hemp : (method ++ ' ' :: rest).isEmpty = false := by
    cases method <;> rfl
  simp [HttpRequest.validateRequestLine, hemp, htok, HttpRequest.validateRequestLineLoop, hm]

/-- C15 (counterexample): the request `GIT / HTTP/1.1` with a Host header is
parsed with status 400, not 501. -/
theorem unknown_method_not_501 :
    (HttpRequest.parse "GIT / HTTP/1.1\r\nHost: x\r\n\r\n".toList).toOption.map
      (fun r => r.status) = some 400 ∧
    (HttpRequest.parse "GIT / HTTP/1.1\r\nHost: x\r\n\r\n".toList).toOption.map
      (fun r => r.status) ≠ some 501 := by
  decide

/-- C15 (amended): for every request whose request line is a method token, a
space, a URI, a space and a version (no carriage return inside the line),
where the method token holds no space and is not one of GET, POST, DELETE,
parsing returns the request object with status 400 and no other field set,
whatever follows the request line. -/
theorem parse_unknown_method (method uri version tail : Bytes)
    (hm : method ∉ HttpRequest.possibleHttpRequests)
    (hsp : ∀ c ∈ method, c ≠ ' ')
    (hcr : ∀ c ∈ method ++ " ".toList ++ uri ++ " ".toList ++ version, c ≠ '\r') :
    HttpRequest.parse
      (method ++ " ".toList ++ uri ++ " ".toList ++ version ++ "\r\n".toList ++ tail) =
      Except.ok (blankRequest 400) := by
  have hshape : method ++ " ".toList ++ uri ++ " ".toList ++ version ++ "\r\n".toList ++ tail =
      (method ++ ' ' :: (uri ++ ' ' :: version)) ++ '\r' :: '\n' :: tail := by
    simp [String.toList]
  have hline : method ++ " ".toList ++ uri ++ " ".toList ++ version =
      method ++ ' ' :: (uri ++ ' ' :: version) := by
    simp [String.toList]
  rw [hline] at hcr
  rw [hshape]
  have hne : method ++ ' ' :: (uri ++ ' ' :: version) ≠ [] := by
    cases method <;> simp
  have hreq : ((method ++ ' ' :: (uri ++ ' ' :: version)) ++ '\r' :: '\n' :: tail).isEmpty
      = false := by
    cases method <;> rfl
  have hval := validateRequestLine_unknown_method (blankRequest 200) method
    (uri ++ ' ' :: version) hm hsp
  simp only [blankRequest] at hval
  rcases requestTokenizerLoop_first_line
      ((method ++ ' ' :: (uri ++ ' ' :: version)) ++ '\r' :: '\n' :: tail).length
      _ tail hne hcr with h | ⟨more, h⟩
  · simp only [HttpRequest.parse, hreq, Bool.false_eq_true, if_false,
      HttpRequest.requestTokenizer, h]
    rfl
  · simp only [HttpRequest.parse, hreq, Bool.false_eq_true, if_false,
      HttpRequest.requestTokenizer, h, hval]
    rfl

/-- C15 (amended) at a concrete input: the method `GIT`. -/
theorem parse_unknown_method_witness :
    "GIT".toList ∉ HttpRequest.possibleHttpRequests ∧
    (∀ c ∈ "GIT".toList, c ≠ ' ') ∧
    (∀ c ∈ "GIT".toList ++ " ".toList ++ "/".toList ++ " ".toList ++ "HTTP/1.1".toList,
      c ≠ '\r') ∧
    HttpRequest.parse
      ("GIT".toList ++ " ".toList ++ "/".toList ++ " ".toList ++ "HTTP/1.1".toList ++
        "\r\n".toList ++ "Host: x\r\n\r\n".toList) =
      Except.ok (blankRequest 400) :=
  ⟨by decide, by decide, by decide,
    parse_unknown_method "GIT".toList "/".toList "HTTP/1.1".toList "Host: x\r\n\r\n".toList
      (by decide) (by decide) (by decide)⟩


/-! ## C21: the tokenizer and the status it leaves -/

theorem checkVersionNumber_cases (r : HttpRequest) (s : Bytes) :
    HttpRequest.checkVersionNumber r s = (true, r) ∨
      (HttpRequest.checkVersionNumber r s).1 = false := by
  unfold HttpRequest.checkVersionNumber
  split
  · dsimp only
    split_ifs <;> simp
  · simp

theorem checkVersionNumber_true (r : HttpRequest) (s : Bytes)
    (h : (HttpRequest.checkVersionNumber r s).1 = true) :
    (HttpRequest.checkVersionNumber r s).2 = r := by
  rcases checkVersionNumber_cases r s with hc | hc
  · rw [hc]
  · rw [hc] at h; cases h

theorem validateVersionLoop_status : ∀ (tokens : List Bytes) (i : Nat) (r : HttpRequest),
    ((HttpRequest.validateVersionLoop r i tokens).1 = true →
      (HttpRequest.validateVersionLoop r i tokens).2 = r) ∧
    ((HttpRequest.validateVersionLoop r i tokens).1 = false →
      (HttpRequest.validateVersionLoop r i tokens).2.status = 400 ∨
      (HttpRequest.validateVersionLoop r i tokens).2.status = 505) := by
  intro tokens
  induction tokens with
  | nil => intro i r; simp [HttpRequest.validateVersionLoop]
  | cons token rest ih =>
    intro i r
    simp only [HttpRequest.validateVersionLoop]
    split
    · simp [HttpRequest.setStatus]
    · split
      · cases hc : HttpRequest.checkVersionNumber r token with
        | mk b r' =>
          cases b with
          | false => simp [HttpRequest.setStatus]
          | true =>
            have hr : r' = r := by
              have := checkVersionNumber_true r token (by rw [hc])
              rw [hc] at this
              exact this
            subst hr
            exact ih (i + 1) r'
      · exact ih (i + 1) r

theorem validateVersion_status (r : HttpRequest) (version : Bytes) :
    ((HttpRequest.validateVersion r version).1 = true →
      (HttpRequest.validateVersion r version).2 = r) ∧
    ((HttpRequest.validateVersion r version).1 = false →
      (HttpRequest.validateVersion r version).2.status = 400 ∨
      (HttpRequest.validateVersion r version).2.status = 505) := by
  unfold HttpRequest.validateVersion
  split
  · simp [HttpRequest.setStatus]
  · split
    · simp [HttpRequest.setStatus]
    · exact validateVersionLoop_status _ 0 r

theorem status_ite_setMethod (c : Bool) (r : HttpRequest) (t : Bytes) :
    (if c = true then r.setMethod t else r).status = r.status := by
  cases c <;> rfl

theorem status_ite_setUri (c : Bool) (r : HttpRequest) (t : Bytes) :
    (if c = true then r.setUri t else r).status = r.status := by
  cases c <;> rfl

theorem validateRequestLineLoop_status : ∀ (tokens : List Bytes) (r : HttpRequest) (i : Nat),
    ((HttpRequest.validateRequestLineLoop r i tokens).1 = none →
      (HttpRequest.validateRequestLineLoop r i tokens).2.status = 400 ∨
      (HttpRequest.validateRequestLineLoop r i tokens).2.status = 505) ∧
    ((HttpRequest.validateRequestLineLoop r i tokens).1 ≠ none →
      (HttpRequest.validateRequestLineLoop r i tokens).2.status = r.status) := by
  intro tokens
  induction tokens with
  | nil => intro r i; simp [HttpRequest.validateRequestLineLoop]
  | cons token rest ih =>
    intro r i
    simp only [HttpRequest.validateRequestLineLoop]
    split
    · simp [HttpRequest.setStatus]
    · split
      · simp [HttpRequest.setStatus]
      · have hst : (if (decide (i = 1) && !token.isEmpty) = true then
            (if (decide (i = 0) && !token.isEmpty) = true then r.setMethod token else r).setUri token
            else (if (decide (i = 0) && !token.isEmpty) = true then r.setMethod token else r)).status
            = r.status := by
          rw [status_ite_setUri, status_ite_setMethod]
        generalize (if (decide (i = 1) && !token.isEmpty) = true then
            (if (decide (i = 0) && !token.isEmpty) = true then r.setMethod token else r).setUri token
            else (if (decide (i = 0) && !token.isEmpty) = true then r.setMethod token else r))
            = r2 at hst ⊢
        split
        · have hvs := validateVersion_status r2 token
          cases hv : HttpRequest.validateVersion r2 token with
          | mk b r3 =>
            rw [hv] at hvs
            cases b with
            | false => simpa using hvs.2 rfl
            | true =>
              have h3 := hvs.1 rfl
              simp only at h3
              have := ih (r3.setVersion token) (i + 1)
              have hs : (r3.setVersion token).status = r.status := by
                rw [h3]; exact hst
              rw [hs] at this
              exact this
        · have := ih r2 (if (!token.isEmpty) = true then i + 1 else i)
          rw [hst] at this
          exact this

theorem validateRequestLine_status (r : HttpRequest) (line : Bytes) (hne : line ≠ []) :
    ∃ b r', HttpRequest.validateRequestLine r line = Except.ok (b, r') ∧
      (b = true → r'.status = r.status) ∧
      (b = false → r'.status = 400 ∨ r'.status = 505) := by
  have hemp : line.isEmpty = false := by
    cases line with
    | nil => exact absurd rfl hne
    | cons _ _ => rfl
  have hloop := validateRequestLineLoop_status (getlines line ' ') r 0
  simp only [HttpRequest.validateRequestLine, hemp, Bool.false_eq_true, if_false]
  cases h : HttpRequest.validateRequestLineLoop r 0 (getlines line ' ') with
  | mk o r' =>
    rw [h] at hloop
    cases o with
    | none => exact ⟨false, r', rfl, by simp, fun _ => hloop.1 rfl⟩
    | some i =>
      by_cases hi : i = 3
      · exact ⟨true, r', by simp [hi], fun _ => hloop.2 (by simp), by simp⟩
      · exact ⟨false, r'.setStatus 400, by simp [hi], by simp,
          fun _ => Or.inl rfl⟩

theorem loadRequestContentLoop_status : ∀ (lines : List Bytes) (r : HttpRequest),
    ((HttpRequest.loadRequestContentLoop r lines).1 = none →
      (HttpRequest.loadRequestContentLoop r lines).2.status = 400) ∧
    ((HttpRequest.loadRequestContentLoop r lines).1 ≠ none →
      (HttpRequest.loadRequestContentLoop r lines).2.status = r.status) := by
  intro lines
  induction lines with
  | nil => intro r; simp [HttpRequest.loadRequestContentLoop]
  | cons line rest ih =>
    intro r
    simp only [HttpRequest.loadRequestContentLoop]
    split_ifs <;> first
      | exact ih _
      | simp [HttpRequest.setStatus]

theorem loadRequestContent_status (r : HttpRequest) (requestVec : List Bytes) :
    HttpRequest.loadRequestContent r requestVec = Except.error Fault.endIteratorDereferenced ∨
    ∃ b r', HttpRequest.loadRequestContent r requestVec = Except.ok (b, r') ∧
      (r'.status = r.status ∨ r'.status = 400) := by
  cases requestVec with
  | nil => exact Or.inr ⟨false, r.setStatus 400, rfl, Or.inr rfl⟩
  | cons first lines =>
    have hloop := loadRequestContentLoop_status lines r
    simp only [HttpRequest.loadRequestContent]
    cases h : HttpRequest.loadRequestContentLoop r lines with
    | mk o r' =>
      rw [h] at hloop
      cases o with
      | none => exact Or.inr ⟨false, r', rfl, Or.inr (hloop.1 rfl)⟩
      | some r'' =>
        have hst : r'.status = r.status := hloop.2 (by simp)
        simp only []
        by_cases hs : r'.searchForHost = true
        · cases hf : mapFind r'.headers "Host".toList with
          | none => exact Or.inl (by simp [hs, hf])
          | some v =>
            exact Or.inr ⟨true, r'.setHost v, by simp [hs, hf], Or.inl hst⟩
        · exact Or.inr ⟨false, r'.setStatus 400, by simp [hs], Or.inr rfl⟩

theorem requestTokenizerLoop_stable : ∀ (fuel i : Nat) (tmp : Bytes) (vec : List Bytes),
    tmp.length ≤ fuel + i → ∀ more : Nat,
      HttpRequest.requestTokenizerLoop (fuel + more) i tmp vec =
        HttpRequest.requestTokenizerLoop fuel i tmp vec := by
  intro fuel
  induction fuel with
  | zero =>
    intro i tmp vec h more
    have hlt : ¬ i < tmp.length := by omega
    cases more with
    | zero => rfl
    | succ m =>
      rw [Nat.zero_add]
      simp [HttpRequest.requestTokenizerLoop, hlt]
  | succ fuel ih =>
    intro i tmp vec h more
    have hfm : fuel + 1 + more = (fuel + more) + 1 := by omega
    rw [hfm]
    simp only [HttpRequest.requestTokenizerLoop]
    split
    · split
      · rfl
      · rename_i pos _
        split
        · rfl
        · split
          · rfl
          · apply ih
            simp only [List.length_drop]
            omega
    · rfl

theorem requestTokenizerLoop_shape (fuel : Nat) (s : Bytes) (hne : s ≠ []) :
    HttpRequest.requestTokenizerLoop (fuel + 1) 0 s [] = none ∨
      ∃ first rest, HttpRequest.requestTokenizerLoop (fuel + 1) 0 s [] = some (first :: rest) ∧
        first ≠ [] := by
  have hlen : 0 < s.length := List.length_pos.mpr hne
  simp only [HttpRequest.requestTokenizerLoop, hlen, if_true, List.nil_append]
  split
  · exact Or.inr ⟨s, [], rfl, hne⟩
  · rename_i pos _
    split
    · exact Or.inl rfl
    · rename_i hline
      have hfirst : s.take pos ≠ [] := by
        intro e
        apply hline
        rw [e]
        rfl
      split
      · exact Or.inr ⟨_, [], rfl, hfirst⟩
      · rcases requestTokenizerLoop_extends fuel 1 (s.drop (pos + 2)) [s.take pos] with h | ⟨m, h⟩
        · exact Or.inl h
        · exact Or.inr ⟨s.take pos, m, by rw [h]; rfl, hfirst⟩

theorem requestTokenizer_status (r : HttpRequest) (s : Bytes) (hne : s ≠ []) :
    HttpRequest.requestTokenizer r s = Except.error Fault.endIteratorDereferenced ∨
    ∃ b r', HttpRequest.requestTokenizer r s = Except.ok (b, r') ∧
      (r'.status = r.status ∨ r'.status = 400 ∨ r'.status = 505) := by
  simp only [HttpRequest.requestTokenizer]
  rcases requestTokenizerLoop_shape s.length s hne with h | ⟨first, rest, h, hfirst⟩
  · rw [h]
    exact Or.inr ⟨false, r.setStatus 400, rfl, Or.inr (Or.inl rfl)⟩
  · rw [h]
    obtain ⟨b, r1, hv, htrue, hfalse⟩ := validateRequestLine_status r first hfirst
    simp only [hv]
    cases b with
    | false => exact Or.inr ⟨false, r1, rfl, Or.inr (hfalse rfl)⟩
    | true =>
      have h1 : r1.status = r.status := htrue rfl
      rcases loadRequestContent_status r1 (first :: rest) with hl | ⟨b2, r2, hl, hst⟩
      · exact Or.inl (by simp [hl])
      · refine Or.inr ⟨true, r2, by simp [hl], ?_⟩
        rcases hst with hst | hst
        · exact Or.inl (by rw [hst, h1])
        · exact Or.inr (Or.inl hst)

/-- C21 (the code on every input, and at the failing input): for every
non-empty request string the loop of `requestTokenizer` terminates (beyond
`length + 1` iterations more fuel changes nothing); it either returns false on
an empty line or leaves a line vector with a non-empty first element, on which
`validateRequestLine` returns without raising its exception; the constructor
never ends in the out-of-range access, in `Missing HttpRequest Type` or in
`Error While Getting The Request`. It then either returns a request whose
status is 200, 400 or 505, or ends in the dereference of the `end()` iterator
of `headers.find("Host")` in `loadRequestContent`, where no status results. -/
theorem parse_status_or_host_fault (s : Bytes) (hne : s ≠ []) :
    (∀ more : Nat, HttpRequest.requestTokenizerLoop (s.length + 1 + more) 0 s [] =
      HttpRequest.requestTokenizerLoop (s.length + 1) 0 s []) ∧
    (HttpRequest.requestTokenizerLoop (s.length + 1) 0 s [] = none ∨
      ∃ first rest,
        HttpRequest.requestTokenizerLoop (s.length + 1) 0 s [] = some (first :: rest) ∧
        first ≠ [] ∧
        ∃ b r, HttpRequest.validateRequestLine (blankRequest 200) first = Except.ok (b, r)) ∧
    HttpRequest.parse s ≠ Except.error Fault.vectorIndexOutOfRange ∧
    HttpRequest.parse s ≠ Except.error Fault.missingHttpRequestType ∧
    HttpRequest.parse s ≠ Except.error Fault.errorWhileGettingTheRequest ∧
    ((∃ r, HttpRequest.parse s = Except.ok r ∧
        (r.status = 200 ∨ r.status = 400 ∨ r.status = 505)) ∨
      HttpRequest.parse s = Except.error Fault.endIteratorDereferenced) := by
  have hemp : s.isEmpty = false := by
    cases s with
    | nil => exact absurd rfl hne
    | cons _ _ => rfl
  have hparse : (∃ r, HttpRequest.parse s = Except.ok r ∧
      (r.status = 200 ∨ r.status = 400 ∨ r.status = 505)) ∨
      HttpRequest.parse s = Except.error Fault.endIteratorDereferenced := by
    have ht := requestTokenizer_status (blankRequest 200) s hne
    simp only [blankRequest] at ht
    simp only [HttpRequest.parse, hemp, Bool.false_eq_true, if_false]
    rcases ht with ht | ⟨b, r', ht, hst⟩
    · exact Or.inr (by rw [ht])
    · exact Or.inl ⟨r', by rw [ht], hst⟩
  refine ⟨?_, ?_, ?_, ?_, ?_, hparse⟩
  · intro more
    exact requestTokenizerLoop_stable (s.length + 1) 0 s [] (by omega) more
  · rcases requestTokenizerLoop_shape s.length s hne with h | ⟨first, rest, h, hfirst⟩
    · exact Or.inl h
    · obtain ⟨b, r, hv, -⟩ := validateRequestLine_status (blankRequest 200) first hfirst
      exact Or.inr ⟨first, rest, h, hfirst, b, r, hv⟩
  · rcases hparse with ⟨r, h, -⟩ | h <;> rw [h] <;> simp
  · rcases hparse with ⟨r, h, -⟩ | h <;> rw [h] <;> simp
  · rcases hparse with ⟨r, h, -⟩ | h <;> rw [h] <;> simp

/-- C21 at the failing input: the request with the header `host: x` goes
through the tokenizer and `validateRequestLine`, and ends in the dereference
of the `end()` iterator. -/
theorem parse_status_or_host_fault_witness :
    demoLowerHost ≠ [] ∧
    ((∀ more : Nat,
        HttpRequest.requestTokenizerLoop (demoLowerHost.length + 1 + more) 0 demoLowerHost [] =
        HttpRequest.requestTokenizerLoop (demoLowerHost.length + 1) 0 demoLowerHost []) ∧
      (HttpRequest.requestTokenizerLoop (demoLowerHost.length + 1) 0 demoLowerHost [] = none ∨
        ∃ first rest,
          HttpRequest.requestTokenizerLoop (demoLowerHost.length + 1) 0 demoLowerHost [] =
            some (first :: rest) ∧
          first ≠ [] ∧
          ∃ b r, HttpRequest.validateRequestLine (blankRequest 200) first = Except.ok (b, r)) ∧
      HttpRequest.parse demoLowerHost ≠ Except.error Fault.vectorIndexOutOfRange ∧
      HttpRequest.parse demoLowerHost ≠ Except.error Fault.missingHttpRequestType ∧
      HttpRequest.parse demoLowerHost ≠ Except.error Fault.errorWhileGettingTheRequest ∧
      ((∃ r, HttpRequest.parse demoLowerHost = Except.ok r ∧
          (r.status = 200 ∨ r.status = 400 ∨ r.status = 505)) ∨
        HttpRequest.parse demoLowerHost = Except.error Fault.endIteratorDereferenced)) ∧
    HttpRequest.parse demoLowerHost = Except.error Fault.endIteratorDereferenced ∧
    HttpRequest.requestTokenizerLoop (demoLowerHost.length + 1) 0 demoLowerHost [] =
      some ["GET / HTTP/1.1".toList, "host: x".toList] :=
  ⟨by decide, parse_status_or_host_fault demoLowerHost (by decide), by decide, by decide⟩

end Nginx
